import Mathlib

/-!
# Verification of `kysely-cursor` (cursor-based pagination for Kysely)

Shallow embedding of `src/dist/index.cjs` (the repository's only runtime
source file).  JavaScript numbers are modelled as exact fractions (so that
`Number.isInteger` and negativity are expressible), JavaScript runtime
values appearing in rows and cursor payloads as the dynamic type `DynV`,
thrown values as `JsError`, and asynchronous functions returning promises
as functions into `Except JsError.rejection` (a rejected promise
short-circuits a `.then` chain exactly as `Except.bind` does).
-/

set_option maxRecDepth 1000000

namespace KyselyCursor

/-- `OrderByDirection` (`"asc" | "desc"`). -/
inductive Direction where
  | asc
  | desc
deriving DecidableEq, Repr

/-- `ErrorCode` from `src/error.ts`. -/
inductive ErrorCode where
  | INVALID_TOKEN
  | INVALID_SORT
  | INVALID_LIMIT
  | UNEXPECTED_ERROR
deriving DecidableEq, Repr

/-- A thrown JavaScript value, as seen by `paginate`'s `catch` blocks.
`pag` is a `PaginationError` (message, code, optional `cause`);
`zod` is the `ZodError` thrown by `CursorPayloadSchema.parse`;
`ext ε` is any other failure raised by an external collaborator
(codec, query executor, store), of caller-chosen type `ε`. -/
inductive JsError (ε : Type) where
  | pag (message : String) (code : ErrorCode) (cause : Option (JsError ε))
  | zod (message : String)
  | ext (e : ε)
deriving Repr

/-- A JavaScript `number`, modelled as the exact fraction `num / den`
(`den` is positive for every value a caller can build in JS; fractions are
kept unnormalised so that every operation below is free of `Nat.gcd` and
kernel-reducible).  The claims only distinguish integrality, sign, order
and equality, which the exact-fraction model captures. -/
structure JsNum where
  num : Int
  den : Nat := 1
deriving DecidableEq, Repr

instance : OfNat JsNum n := ⟨{ num := n }⟩

/-- `Number.isInteger`. -/
def JsNum.isInt (a : JsNum) : Bool :=
  a.num.emod a.den == 0

/-- Value equality (`===` on numbers). -/
def JsNum.eqv (a b : JsNum) : Bool :=
  a.num * b.den == b.num * a.den

/-- Value order (`<` on numbers). -/
def JsNum.lt (a b : JsNum) : Bool :=
  a.num * b.den < b.num * a.den

/-- Addition (used for `limit + 1`). -/
def JsNum.add (a b : JsNum) : JsNum :=
  { num := a.num * b.den + b.num * a.den, den := a.den * b.den }

/-- Truncation toward zero (`ToIntegerOrInfinity`), exact on integers. -/
def JsNum.toIntTrunc (a : JsNum) : Int :=
  a.num.tdiv a.den

/-- A dynamic JavaScript value: the value space of row fields and decoded
cursor payloads.  `vobj` models a plain object as an association list in
property-insertion order (real JS objects never repeat a key); `vother`
embeds any further caller-chosen leaf values (dates, bigints, ...). -/
inductive DynV (V : Type) where
  | vundefined
  | vnull
  | vstr (s : String)
  | vnum (q : JsNum)
  | vobj (fields : List (String × DynV V))
  | vother (v : V)

/-- `value === null`. -/
def DynV.isNull {V : Type} : DynV V → Bool
  | .vnull => true
  | _ => false

/-- `key in obj` for a plain-object association list. -/
def objHas {α : Type} (fields : List (String × α)) (key : String) : Bool :=
  fields.any (fun p => p.1 == key)

/-- `obj[key]`, yielding `undefined`-like default `d` when the key is absent
(JS property access on a missing key yields `undefined`). -/
def objGetD {α : Type} (fields : List (String × α)) (key : String) (d : α) : α :=
  match fields.find? (fun p => p.1 == key) with
  | some p => p.2
  | none => d

/-- One step of `Object.fromEntries`: assigning `key := v` into a plain
object keeps the key's first-insertion position but overwrites its value. -/
def objInsert {α : Type} (fields : List (String × α)) (key : String) (v : α) :
    List (String × α) :=
  if objHas fields key then
    fields.map (fun p => if p.1 == key then (key, v) else p)
  else
    fields ++ [(key, v)]

/-- `Object.fromEntries`, with JavaScript semantics for duplicate keys
(first occurrence fixes the position, last occurrence fixes the value). -/
def fromEntries {α : Type} (entries : List (String × α)) : List (String × α) :=
  entries.foldl (fun acc p => objInsert acc p.1 p.2) []

/-- A sort descriptor (`SortItem`): the column reference `col` (modelled as
its string form), the optional explicit `output` key, and the optional
direction.  `output` being `some` models `"output" in sort`. -/
structure SortItem where
  col : String
  output : Option String := none
  dir : Option Direction := none
deriving DecidableEq, Repr

/-- `applyDefaultDirection` from `src/sorting.ts`: `dir ?? "asc"`. -/
def applyDefaultDirection (dir : Option Direction) : Direction :=
  dir.getD .asc

/-- The final `.`-separated segment of a string
(`col.split(".").at(-1)`: everything after the last `.`, the whole string
when there is no `.`). -/
def lastDotSegment (s : String) : String :=
  (s.toList.foldl (fun acc c => if c == '.' then [] else acc ++ [c]) []).asString

/-- `getSortOutput`: the explicit `output` if present, else the final
`.`-separated segment of `col` (`sort.col.split(".").at(-1)`). -/
def getSortOutput (sort : SortItem) : String :=
  match sort.output with
  | some o => o
  | none => lastDotSegment sort.col

/-! ## UTF-8 and SHA-256 (for `crypto.createHash("sha256")` on UTF-8 text) -/

/-- UTF-8 encoding of a single scalar value (a Lean `Char` is a Unicode
scalar value, so the 1–4 byte cases below are exhaustive). -/
def utf8Char (c : Char) : List Nat :=
  let n := c.toNat
  if n < 0x80 then [n]
  else if n < 0x800 then
    [0xC0 + n / 64, 0x80 + n % 64]
  else if n < 0x10000 then
    [0xE0 + n / 4096, 0x80 + (n / 64) % 64, 0x80 + n % 64]
  else
    [0xF0 + n / 262144, 0x80 + (n / 4096) % 64, 0x80 + (n / 64) % 64, 0x80 + n % 64]

/-- UTF-8 byte sequence of a string. -/
def utf8Bytes (s : String) : List Nat :=
  s.toList.flatMap utf8Char

/-- Right-rotation of a 32-bit word. -/
def rotr32 (n x : Nat) : Nat :=
  ((x >>> n) ||| (x <<< (32 - n))) % 2 ^ 32

/-- SHA-256 round constants (first 32 bits of the fractional parts of the
cube roots of the first 64 primes). -/
def sha256K : Array Nat := #[
  1116352408, 1899447441, 3049323471, 3921009573, 961987163, 1508970993,
  2453635748, 2870763221, 3624381080, 310598401, 607225278, 1426881987,
  1925078388, 2162078206, 2614888103, 3248222580, 3835390401, 4022224774,
  264347078, 604807628, 770255983, 1249150122, 1555081692, 1996064986,
  2554220882, 2821834349, 2952996808, 3210313671, 3336571891, 3584528711,
  113926993, 338241895, 666307205, 773529912, 1294757372, 1396182291,
  1695183700, 1986661051, 2177026350, 2456956037, 2730485921, 2820302411,
  3259730800, 3345764771, 3516065817, 3600352804, 4094571909, 275423344,
  430227734, 506948616, 659060556, 883997877, 958139571, 1322822218,
  1537002063, 1747873779, 1955562222, 2024104815, 2227730452, 2361852424,
  2428436474, 2756734187, 3204031479, 3329325298]

/-- SHA-256 initial hash state (first 32 bits of the fractional parts of
the square roots of the first 8 primes). -/
def sha256H0 : Array Nat :=
  #[1779033703, 3144134277, 1013904242, 2773480762,
    1359893119, 2600822924, 528734635, 1541459225]

/-- SHA-256 message padding: append `0x80`, zero bytes, and the 64-bit
big-endian bit length, reaching a multiple of 64 bytes. -/
def sha256Pad (msg : List Nat) : List Nat :=
  let len := msg.length
  let zeroCount := (55 + 64 - len % 64) % 64
  let bitLen := len * 8
  msg ++ [0x80] ++ List.replicate zeroCount 0 ++
    ((List.range 8).map (fun i => (bitLen >>> ((7 - i) * 8)) % 256))

/-- Big-endian 32-bit word from 4 bytes. -/
def wordOfBytes (b0 b1 b2 b3 : Nat) : Nat :=
  ((b0 * 256 + b1) * 256 + b2) * 256 + b3

/-- Split a byte list into big-endian 32-bit words (length a multiple of 4). -/
def bytesToWords : List Nat → List Nat
  | b0 :: b1 :: b2 :: b3 :: rest => wordOfBytes b0 b1 b2 b3 :: bytesToWords rest
  | _ => []

/-- Extend 16 schedule words to 64 (`w[i] = σ1(w[i-2]) + w[i-7] + σ0(w[i-15]) + w[i-16]`). -/
def sha256Schedule (w : Array Nat) : Array Nat :=
  (List.range 48).foldl
    (fun w i =>
      let t := i + 16
      let s0 := (rotr32 7 w[(t - 15) % 64]!) ^^^ (rotr32 18 w[(t - 15) % 64]!) ^^^ (w[(t - 15) % 64]! >>> 3)
      let s1 := (rotr32 17 w[(t - 2) % 64]!) ^^^ (rotr32 19 w[(t - 2) % 64]!) ^^^ (w[(t - 2) % 64]! >>> 10)
      w.push ((w[(t - 16) % 64]! + s0 + w[(t - 7) % 64]! + s1) % 2 ^ 32))
    w

/-- One SHA-256 compression round. -/
def sha256Round (k w : Nat) (st : Array Nat) : Array Nat :=
  let a := st[0]!; let b := st[1]!; let c := st[2]!; let d := st[3]!
  let e := st[4]!; let f := st[5]!; let g := st[6]!; let h := st[7]!
  let s1 := (rotr32 6 e) ^^^ (rotr32 11 e) ^^^ (rotr32 25 e)
  let ch := (e &&& f) ^^^ ((2 ^ 32 - 1 - e) &&& g)
  let t1 := (h + s1 + ch + k + w) % 2 ^ 32
  let s0 := (rotr32 2 a) ^^^ (rotr32 13 a) ^^^ (rotr32 22 a)
  let mj := (a &&& b) ^^^ (a &&& c) ^^^ (b &&& c)
  let t2 := (s0 + mj) % 2 ^ 32
  #[(t1 + t2) % 2 ^ 32, a, b, c, (d + t1) % 2 ^ 32, e, f, g]

/-- Compress one 64-byte block into the running hash state. -/
def sha256Block (h : Array Nat) (block : List Nat) : Array Nat :=
  let w := sha256Schedule (List.toArray (bytesToWords block))
  let st := (List.range 64).foldl (fun st i => sha256Round sha256K[i % 64]! w[i % 64]! st) h
  (List.range 8).toArray.map (fun i => (h[i % 8]! + st[i % 8]!) % 2 ^ 32)

/-- Process `n` consecutive 64-byte blocks (structural recursion on the
block count so that the kernel can evaluate digests). -/
def sha256BlocksGo (h : Array Nat) (bytes : List Nat) : Nat → Array Nat
  | 0 => h
  | n + 1 => sha256BlocksGo (sha256Block h (bytes.take 64)) (bytes.drop 64) n

/-- Split padded input into 64-byte blocks and fold the compression. -/
def sha256Blocks (h : Array Nat) (bytes : List Nat) : Array Nat :=
  sha256BlocksGo h bytes (bytes.length / 64)

/-- SHA-256 digest (32 bytes) of a byte sequence. -/
def sha256 (msg : List Nat) : List Nat :=
  let h := sha256Blocks sha256H0 (sha256Pad msg)
  (List.range 8).flatMap (fun i =>
    let w := h[i % 8]!
    [(w >>> 24) % 256, (w >>> 16) % 256, (w >>> 8) % 256, w % 256])

/-- Lowercase hex digit for a nibble. -/
def hexDigit (n : Nat) : Char :=
  ("0123456789abcdef".toList).getD (n % 16) '0'

/-- Lowercase hex string of a byte sequence (`digest("hex")`). -/
def hexOfBytes (bytes : List Nat) : String :=
  String.mk (bytes.flatMap (fun b => [hexDigit (b / 16), hexDigit b]))

/-- The label a sort item contributes to the signature string:
`"output" in s ? s.output : s.col` — the raw `col` (qualification
included) when `output` is absent, not `getSortOutput`. -/
def sigLabel (s : SortItem) : String :=
  match s.output with
  | some o => o
  | none => s.col

/-- The direction name in the signature string. -/
def dirName : Direction → String
  | .asc => "asc"
  | .desc => "desc"

/-- The pre-hash signature string of `sortSignature`:
`` sorts.map(s => `${"output" in s ? s.output : s.col}:${s.dir ?? "asc"}`).join("|") ``. -/
def sigString (sorts : List SortItem) : String :=
  String.intercalate "|" (sorts.map (fun s =>
    sigLabel s ++ ":" ++ dirName (applyDefaultDirection s.dir)))

/-- `sortSignature`: first 8 hex characters of the SHA-256 of the signature
string. -/
def sortSignature (sorts : List SortItem) : String :=
  ((hexOfBytes (sha256 (utf8Bytes (sigString sorts)))).toList.take 8).asString

/-! ## Keyset predicate builder -/

/-- Comparison operators appearing in generated predicates. -/
inductive CmpOp where
  | lt
  | gt
  | eq
deriving DecidableEq, Repr

/-- The boolean expression tree produced through the Kysely expression
builder `eb`.  `eb(col, op, value)` is `cmp`; `eb(col, "is", null)` is
`isNull`; `eb(col, "is not", null)` is `isNotNull`; both `eb.and([...])`
and the binary `x.and(y)` are modelled as the conjunction list `andL`,
and `eb.or([...])` as `orL`. -/
inductive Expr (V : Type) where
  | cmp (col : String) (op : CmpOp) (v : DynV V)
  | isNull (col : String)
  | isNotNull (col : String)
  | andL (es : List (Expr V))
  | orL (es : List (Expr V))

/-- The cursor payload after schema validation: `{sig, k}` with `k` a
plain object mapping output keys to arbitrary runtime values. -/
structure CursorPayload (V : Type) where
  sig : String
  k : List (String × DynV V)

/-- The `INVALID_TOKEN` message of the predicate builder. -/
def missingKeyMessage (key : String) : String :=
  "Missing pagination cursor value for \"" ++ key ++ "\""

/-- Body of `buildCursorPredicateRecursive`, with an explicit fuel argument
so the recursion is structural (the JS recursion on `idx` terminates because
`idx` only increases while `idx < sorts.length - 1`; the wrapper below
supplies fuel `sorts.length + 1 - idx`, which makes the fuel-0 case coincide
with the out-of-bounds case `sorts[idx] === undefined`). -/
def buildCursorPredicateGo {V ε : Type} (sorts : List SortItem)
    (decoded : CursorPayload V) (idx : Nat) : Nat → Except (JsError ε) (Expr V)
  | 0 => .error (.pag "Sort index out of bounds" .UNEXPECTED_ERROR none)
  | fuel + 1 =>
    match sorts[idx]? with
    | none => .error (.pag "Sort index out of bounds" .UNEXPECTED_ERROR none)
    | some sort =>
      let dir := applyDefaultDirection sort.dir
      let col := sort.col
      let key := getSortOutput sort
      if objHas decoded.k key then
        let value := objGetD decoded.k key .vundefined
        let cmp := if dir = .desc then CmpOp.lt else CmpOp.gt
        if idx = sorts.length - 1 then
          .ok (.cmp col cmp value)
        else
          match buildCursorPredicateGo sorts decoded (idx + 1) fuel with
          | .error e => .error e
          | .ok next =>
            if value.isNull then
              if dir = .asc then
                .ok (.orL [.andL [.isNull col, next], .isNotNull col])
              else
                .ok (.andL [.isNull col, next])
            else
              .ok (.orL ([.cmp col cmp value, .andL [.cmp col .eq value, next]] ++
                if dir = .desc then [.isNull col] else []))
      else
        .error (.pag (missingKeyMessage key) .INVALID_TOKEN none)

/-- `buildCursorPredicateRecursive(eb, sorts, decoded, idx = 0)`. -/
def buildCursorPredicateRecursive {V ε : Type} (sorts : List SortItem)
    (decoded : CursorPayload V) (idx : Nat := 0) : Except (JsError ε) (Expr V) :=
  buildCursorPredicateGo sorts decoded idx (sorts.length + 1 - idx)

/-- Body of the predicate exactly as §4.4 of the spec words it, organised
by the spec's own case split (resolve direction and stored value, operator
by direction, base case at the final position, recursive case with the
null/non-null and Ascending/Descending sub-cases).  This is the second
definition of a refinement claim: it follows the spec's words, to be
compared with `buildCursorPredicateRecursive`, which follows the source.
The spec does not fix error messages, so the builder's are reused. -/
def specLexPredicateGo {V ε : Type} (sorts : List SortItem)
    (decoded : CursorPayload V) (idx : Nat) : Nat → Except (JsError ε) (Expr V)
  | 0 => .error (.pag "Sort index out of bounds" .UNEXPECTED_ERROR none)
  | fuel + 1 =>
    match sorts[idx]? with
    | none => .error (.pag "Sort index out of bounds" .UNEXPECTED_ERROR none)
    | some sort =>
      let dir := applyDefaultDirection sort.dir
      let key := getSortOutput sort
      match decoded.k.find? (fun p => p.1 == key) with
      | none => .error (.pag (missingKeyMessage key) .INVALID_TOKEN none)
      | some entry =>
        let value := entry.2
        let op := match dir with | .asc => CmpOp.gt | .desc => CmpOp.lt
        if idx + 1 = sorts.length then
          .ok (.cmp sort.col op value)
        else
          (specLexPredicateGo sorts decoded (idx + 1) fuel).bind fun next =>
            match value.isNull, dir with
            | true, .asc =>
              .ok (.orL [.andL [.isNull sort.col, next], .isNotNull sort.col])
            | true, .desc =>
              .ok (.andL [.isNull sort.col, next])
            | false, .asc =>
              .ok (.orL [.cmp sort.col op value, .andL [.cmp sort.col .eq value, next]])
            | false, .desc =>
              .ok (.orL [.cmp sort.col op value, .andL [.cmp sort.col .eq value, next],
                .isNull sort.col])

/-- The spec's lexicographic predicate, same calling convention as the
builder. -/
def specLexPredicate {V ε : Type} (sorts : List SortItem)
    (decoded : CursorPayload V) (idx : Nat := 0) : Except (JsError ε) (Expr V) :=
  specLexPredicateGo sorts decoded idx (sorts.length + 1 - idx)

/-! ## Codec and composition -/

/-- A bidirectional transform (`src/codec/codec.ts`).  JS values are
untyped, so the pipeline is modelled over one value universe `α`; an
asynchronous `encode`/`decode` that may reject is a function into
`Except ε`. -/
structure Codec (ε α : Type) where
  encode : α → Except ε α
  decode : α → Except ε α

/-- `codecPipe(...codecs)`: `encode` left-folds the encodes over the
codecs (a `.then` chain starting from `Promise.resolve(value)`), `decode`
right-folds the decodes (`reduceRight`). -/
def codecPipe {ε α : Type} (codecs : List (Codec ε α)) : Codec ε α where
  encode value := codecs.foldl (fun acc c => acc.bind c.encode) (.ok value)
  decode value := codecs.foldr (fun c acc => acc.bind c.decode) (.ok value)

/-- The spec's wording of composed encoding: run left to right, the output
of codec `n` feeding codec `n+1`. -/
def specChainEncode {ε α : Type} : List (Codec ε α) → α → Except ε α
  | [], v => .ok v
  | c :: cs, v => (c.encode v).bind (specChainEncode cs)

/-- The spec's wording of composed decoding: decodes applied in exactly the
inverse order (codec `n` first, codec `1` last). -/
def specChainDecode {ε α : Type} : List (Codec ε α) → α → Except ε α
  | [], v => .ok v
  | c :: cs, v => (specChainDecode cs v).bind c.decode

/-! ## base64url codec -/

/-- The base64url alphabet. -/
def b64Alphabet : List Char :=
  "ABCDEFGHIJKLMNOPQRSTUVWXYZabcdefghijklmnopqrstuvwxyz0123456789-_".toList

/-- Character for a sextet. -/
def b64Char (n : Nat) : Char :=
  b64Alphabet.getD (n % 64) 'A'

/-- Unpadded base64url of a byte sequence
(`Buffer.toString("base64url")` emits no `=` padding). -/
def b64urlEncodeBytes : List Nat → List Char
  | [] => []
  | [b0] => [b64Char (b0 / 4), b64Char (b0 % 4 * 16)]
  | [b0, b1] => [b64Char (b0 / 4), b64Char (b0 % 4 * 16 + b1 / 16), b64Char (b1 % 16 * 4)]
  | b0 :: b1 :: b2 :: rest =>
    b64Char (b0 / 4) :: b64Char (b0 % 4 * 16 + b1 / 16) ::
      b64Char (b1 % 16 * 4 + b2 / 64) :: b64Char (b2 % 64) :: b64urlEncodeBytes rest

/-- Sextet value of an alphabet character. -/
def b64Val (c : Char) : Option Nat :=
  b64Alphabet.findIdx? (· == c)

/-- Decode sextet groups: each full group of 4 yields 3 bytes, a trailing
group of 2 or 3 yields 1 or 2 bytes, and a lone trailing sextet yields
nothing (Node drops it). -/
def b64SextetsToBytes : List Nat → List Nat
  | s0 :: s1 :: s2 :: s3 :: rest =>
    (s0 * 4 + s1 / 16) :: (s1 % 16 * 16 + s2 / 4) :: (s2 % 4 * 64 + s3) ::
      b64SextetsToBytes rest
  | [s0, s1, s2] => [s0 * 4 + s1 / 16, s1 % 16 * 16 + s2 / 4]
  | [s0, s1] => [s0 * 4 + s1 / 16]
  | _ => []

/-- `Buffer.from(s, "base64url")`: Node's lenient base64 decoding never
throws; characters outside the alphabet are ignored and the remaining
sextets are decoded. -/
def b64urlDecodeBytes (s : String) : List Nat :=
  b64SextetsToBytes (s.toList.filterMap b64Val)

/-- The replacement character emitted by lossy UTF-8 decoding. -/
def replacementChar : Char := '�'

/-- Lossy UTF-8 decoding body with explicit fuel (an upper bound on the
byte count, so recursion stays structural): well-formed sequences decode
to their scalar values, malformed bytes become U+FFFD. -/
def utf8DecodeLossyGo : Nat → List Nat → List Char
  | 0, _ => []
  | _ + 1, [] => []
  | fuel + 1, b0 :: rest =>
    if b0 < 0x80 then Char.ofNat b0 :: utf8DecodeLossyGo fuel rest
    else if b0 < 0xC2 then replacementChar :: utf8DecodeLossyGo fuel rest
    else if b0 < 0xE0 then
      match rest with
      | b1 :: rest1 =>
        if 0x80 ≤ b1 && b1 < 0xC0 then
          Char.ofNat ((b0 - 0xC0) * 64 + (b1 - 0x80)) :: utf8DecodeLossyGo fuel rest1
        else replacementChar :: utf8DecodeLossyGo fuel (b1 :: rest1)
      | [] => [replacementChar]
    else if b0 < 0xF0 then
      match rest with
      | b1 :: b2 :: rest2 =>
        if 0x80 ≤ b1 && b1 < 0xC0 && 0x80 ≤ b2 && b2 < 0xC0 then
          let n := (b0 - 0xE0) * 4096 + (b1 - 0x80) * 64 + (b2 - 0x80)
          if n < 0x800 || (0xD800 ≤ n && n < 0xE000) then
            replacementChar :: utf8DecodeLossyGo fuel rest2
          else Char.ofNat n :: utf8DecodeLossyGo fuel rest2
        else replacementChar :: utf8DecodeLossyGo fuel rest
      | _ => [replacementChar]
    else if b0 < 0xF5 then
      match rest with
      | b1 :: b2 :: b3 :: rest3 =>
        if 0x80 ≤ b1 && b1 < 0xC0 && 0x80 ≤ b2 && b2 < 0xC0 && 0x80 ≤ b3 && b3 < 0xC0 then
          let n := (b0 - 0xF0) * 262144 + (b1 - 0x80) * 4096 + (b2 - 0x80) * 64 + (b3 - 0x80)
          if n < 0x10000 || 0x110000 ≤ n then
            replacementChar :: utf8DecodeLossyGo fuel rest3
          else Char.ofNat n :: utf8DecodeLossyGo fuel rest3
        else replacementChar :: utf8DecodeLossyGo fuel rest
      | _ => [replacementChar]
    else replacementChar :: utf8DecodeLossyGo fuel rest

/-- Lossy UTF-8 decoding (`buffer.toString("utf8")`). -/
def utf8DecodeLossy (bytes : List Nat) : List Char :=
  utf8DecodeLossyGo bytes.length bytes

/-- `base64UrlCodec` from `src/codec/base64Url.ts`:
`encode: s => Buffer.from(s, "utf8").toString("base64url")` and
`decode: s => Buffer.from(s, "base64url").toString("utf8")`.  Neither
direction can throw, so both always return `.ok`. -/
def base64UrlCodec {ε : Type} : Codec ε String where
  encode s := .ok (b64urlEncodeBytes (utf8Bytes s)).asString
  decode s := .ok (utf8DecodeLossy (b64urlDecodeBytes s)).asString

/-! ## Cursor decoding and pagination orchestration -/

/-- The configured cursor codec (`Codec<any, string>` in `PaginatorOptions`):
`encode` turns a payload object into a token string, `decode` turns a token
into an arbitrary runtime value, validated afterwards by the zod schema. -/
structure CursorCodec (V ε : Type) where
  encode : DynV V → Except (JsError ε) String
  decode : String → Except (JsError ε) (DynV V)

/-- The incoming cursor as a JS object; `some` models presence of the key
(`"nextPage" in cursor` etc.). -/
structure CursorIncoming where
  nextPage : Option String := none
  prevPage : Option String := none
  offset : Option JsNum := none

/-- The tag of a decoded cursor (`type: "next" | "prev" | "offset"`). -/
inductive CursorType where
  | next
  | prev
  | offset
deriving DecidableEq, Repr

/-- Result of `decodeCursor`. -/
inductive DecodedCursor (V : Type) where
  | next (payload : CursorPayload V)
  | prev (payload : CursorPayload V)
  | offset (offset : JsNum)

/-- `decodedCursor.type`. -/
def DecodedCursor.type {V : Type} : DecodedCursor V → CursorType
  | .next _ => .next
  | .prev _ => .prev
  | .offset _ => .offset

/-- `CursorPayloadSchema.parse`: the decoded value must be an object whose
`sig` is a string and whose `k` is an object (`z.record(z.string(), z.any())`);
anything else throws a `ZodError`, which is not a `PaginationError`. -/
def parseCursorPayload {V ε : Type} (v : DynV V) : Except (JsError ε) (CursorPayload V) :=
  match v with
  | .vobj fields =>
    match objGetD fields "sig" .vundefined, objGetD fields "k" .vundefined with
    | .vstr sig, .vobj k => .ok ⟨sig, k⟩
    | _, _ => .error (.zod "invalid cursor payload")
  | _ => .error (.zod "invalid cursor payload")

/-- `decodeCursorPayload`: run the codec's `decode`, then the zod parse. -/
def decodeCursorPayload {V ε : Type} (token : String) (keysetCodec : CursorCodec V ε) :
    Except (JsError ε) (CursorPayload V) :=
  (keysetCodec.decode token).bind parseCursorPayload

/-- `decodeCursor`: examine `nextPage`, then `prevPage`, then `offset`;
no recognised key is an `INVALID_TOKEN` error. -/
def decodeCursor {V ε : Type} (cursor : CursorIncoming) (keysetCodec : CursorCodec V ε) :
    Except (JsError ε) (DecodedCursor V) :=
  match cursor.nextPage with
  | some tok => (decodeCursorPayload tok keysetCodec).map .next
  | none =>
    match cursor.prevPage with
    | some tok => (decodeCursorPayload tok keysetCodec).map .prev
    | none =>
      match cursor.offset with
      | some o => .ok (.offset o)
      | none => .error (.pag "Invalid cursor" .INVALID_TOKEN none)

/-- A fetched row: a JS object from output key to value. -/
abbrev Row (V : Type) := List (String × DynV V)

/-- `item[key]` (`undefined` when absent). -/
def rowGet {V : Type} (row : Row V) (key : String) : DynV V :=
  objGetD row key .vundefined

/-- `resolveCursor(item, sorts)`: the outgoing payload
`{sig: sortSignature(sorts), k: fromEntries(sorts.map(s => [getSortOutput(s), item[getSortOutput(s)]]))}`. -/
def resolveCursor {V : Type} (item : Row V) (sorts : List SortItem) : CursorPayload V :=
  { sig := sortSignature sorts
    k := fromEntries (sorts.map (fun s => (getSortOutput s, rowGet item (getSortOutput s)))) }

/-- The payload object handed to the cursor codec's `encode`. -/
def CursorPayload.toDyn {V : Type} (p : CursorPayload V) : DynV V :=
  .vobj [("sig", .vstr p.sig), ("k", .vobj p.k)]

/-- JS truthiness of a `string | undefined` (`!!token`): `undefined` and
the empty string are falsy. -/
def truthyStr : Option String → Bool
  | none => false
  | some s => !(s == "")

/-- `CursorOutgoing`: each token present or absent. -/
structure CursorOutgoing where
  startCursor : Option String := none
  endCursor : Option String := none
  nextPage : Option String := none
  prevPage : Option String := none
deriving DecidableEq, Repr

/-- `decodedCursor?.type === "prev"`. -/
def isPrevCursor {V : Type} : Option (DecodedCursor V) → Bool
  | some (.prev _) => true
  | _ => false

/-- `!decodedCursor || (decodedCursor.type === "offset" && decodedCursor.offset === 0)`. -/
def isFirstCursor {V : Type} : Option (DecodedCursor V) → Bool
  | none => true
  | some (.offset o) => JsNum.eqv o 0
  | some _ => false

/-- `first ? await cursorCodec.encode(resolveCursor(first, sorts)) : void 0`:
the optional start/end token of `resolvePageTokens`. -/
def encodeRowCursor {V ε : Type} (cursorCodec : CursorCodec V ε) (sorts : List SortItem) :
    Option (Row V) → Except (JsError ε) (Option String)
  | some row => (cursorCodec.encode (resolveCursor row sorts).toDyn).map some
  | none => .ok none

/-- `resolvePageTokens(rows, sorts, cursorCodec, decodedCursor, overFetched)`
(called by `paginate` with `items` as `rows`). -/
def resolvePageTokens {V ε : Type} (rows : List (Row V)) (sorts : List SortItem)
    (cursorCodec : CursorCodec V ε) (decodedCursor : Option (DecodedCursor V))
    (overFetched : Bool) : Except (JsError ε) CursorOutgoing :=
  if rows.length = 0 then .ok {} else
  let inverted := isPrevCursor decodedCursor
  let isFirst := isFirstCursor decodedCursor
  (encodeRowCursor cursorCodec sorts rows.head?).bind fun startCursor =>
  (encodeRowCursor cursorCodec sorts rows.getLast?).bind fun endCursor =>
  .ok { startCursor := startCursor
        endCursor := endCursor
        prevPage := if (!inverted || overFetched) && !isFirst then startCursor else none
        nextPage := if inverted || overFetched then endCursor else none }

/-- An edge (`{node, cursor}`). -/
structure Edge (V : Type) where
  node : Row V
  cursor : String

/-- `resolveEdges(rows, sorts, cursorCodec)`: one cursor per row. -/
def resolveEdges {V ε : Type} (rows : List (Row V)) (sorts : List SortItem)
    (cursorCodec : CursorCodec V ε) : Except (JsError ε) (List (Edge V)) :=
  if rows.length = 0 then .ok [] else
  rows.mapM (fun row =>
    (cursorCodec.encode (resolveCursor row sorts).toDyn).map (fun c => ⟨row, c⟩))

/-- `invertSorts`: flip every effective direction (absent counts as
Ascending), keeping the other fields. -/
def invertSorts (sorts : List SortItem) : List SortItem :=
  sorts.map (fun s =>
    { s with dir := some (if applyDefaultDirection s.dir = .desc then .asc else .desc) })

/-- `assertLimitSorts`: `Number.isInteger(limit) && limit > 0`, then a
non-empty sort array. -/
def assertLimitSorts {ε : Type} (limit : JsNum) (sorts : List SortItem) :
    Except (JsError ε) Unit :=
  if limit.isInt && JsNum.lt 0 limit then
    if sorts.length < 1 then
      .error (.pag "Cannot paginate without sorting" .INVALID_SORT none)
    else .ok ()
  else .error (.pag "Invalid page size limit" .INVALID_LIMIT none)

/-- `PaginationDialect`, parametric in the dialect's query representation
`Q`.  `applyCursor` runs the predicate builder inside `builder.where`, so
it can throw. -/
structure PaginationDialect (Q V ε : Type) where
  applyLimit : Q → JsNum → Option CursorType → Q
  applyOffset : Q → JsNum → Q
  applySort : Q → List SortItem → Q
  applyCursor : Q → List SortItem → CursorPayload V → Except (JsError ε) Q

/-- A transparent query value recording exactly the clauses the dialect
helpers received; instantiates the dialect-generic `paginate` in the
theorems below. -/
structure RecQuery (V : Type) where
  sortsApplied : Option (List SortItem) := none
  limitApplied : Option JsNum := none
  limitCursorType : Option CursorType := none
  offsetApplied : Option JsNum := none
  wherePred : Option (Expr V) := none

/-- `baseApplyCursor`: attach the §4.4 predicate
(`builder.where(eb => buildCursorPredicateRecursive(eb, sorts, cursor.payload))`). -/
def baseApplyCursor {V ε : Type} (builder : RecQuery V) (sorts : List SortItem)
    (payload : CursorPayload V) : Except (JsError ε) (RecQuery V) :=
  (buildCursorPredicateRecursive sorts payload).map
    (fun e => { builder with wherePred := some e })

/-- The recording dialect (order by / limit / offset recorded verbatim,
cursor applied through `baseApplyCursor`, like all four shipped dialects). -/
def recDialect (V ε : Type) : PaginationDialect (RecQuery V) V ε where
  applyLimit q limit cursorType :=
    { q with limitApplied := some limit, limitCursorType := cursorType }
  applyOffset q offset := { q with offsetApplied := some offset }
  applySort q sorts := { q with sortsApplied := some sorts }
  applyCursor := baseApplyCursor

/-- Lines 275–287 of `paginate`: effective sorts, order by, limit `+ 1`,
then offset or signature check plus keyset predicate. -/
def appliedQuery {Q V ε : Type} (dialect : PaginationDialect Q V ε) (query : Q)
    (sorts : List SortItem) (limit : JsNum) (decodedCursor : Option (DecodedCursor V)) :
    Except (JsError ε) Q :=
  let sortsApplied := match decodedCursor with
    | some (.prev _) => invertSorts sorts
    | _ => sorts
  let q := dialect.applySort query sortsApplied
  let q := dialect.applyLimit q (JsNum.add limit 1) (decodedCursor.map DecodedCursor.type)
  match decodedCursor with
  | none => .ok q
  | some (.offset o) => .ok (dialect.applyOffset q o)
  | some (.next payload) =>
    if payload.sig ≠ sortSignature sorts then
      .error (.pag "Page token does not match sort order" .INVALID_TOKEN none)
    else dialect.applyCursor q sortsApplied payload
  | some (.prev payload) =>
    if payload.sig ≠ sortSignature sorts then
      .error (.pag "Page token does not match sort order" .INVALID_TOKEN none)
    else dialect.applyCursor q sortsApplied payload

/-- `PaginatedResult`. -/
structure PaginatedResult (V : Type) where
  items : List (Row V)
  prevPage : Option String
  nextPage : Option String
  startCursor : Option String
  endCursor : Option String
  hasPrevPage : Bool
  hasNextPage : Bool

/-- Line 274 of `paginate`:
`cursor ? await decodeCursor(cursor, cursorCodec) : null`. -/
def decodeCursorOpt {V ε : Type} (cursor : Option CursorIncoming)
    (cursorCodec : CursorCodec V ε) : Except (JsError ε) (Option (DecodedCursor V)) :=
  match cursor with
  | some c => (decodeCursor c cursorCodec).map some
  | none => .ok none

/-- Line 289 of `paginate`: `rows.slice(0, limit).reverse()` for a `prev`
cursor, `rows.slice(0, limit)` otherwise.  `limit` is a validated positive
integer at this point, so the slice bound truncates exactly. -/
def pageItems {V : Type} (decodedCursor : Option (DecodedCursor V))
    (rows : List (Row V)) (limit : JsNum) : List (Row V) :=
  match decodedCursor with
  | some (.prev _) => (rows.take limit.toIntTrunc.toNat).reverse
  | _ => rows.take limit.toIntTrunc.toNat

/-- The body of `paginate`'s `try` block.  `exec` is the externally
supplied query execution (`q.execute()`).  `rows.length > limit` is the
exact numeric comparison. -/
def paginateInner {Q V ε : Type} (dialect : PaginationDialect Q V ε)
    (exec : Q → Except (JsError ε) (List (Row V))) (query : Q)
    (sorts : List SortItem) (limit : JsNum) (cursor : Option CursorIncoming)
    (cursorCodec : CursorCodec V ε) : Except (JsError ε) (PaginatedResult V) :=
  (decodeCursorOpt cursor cursorCodec).bind fun decodedCursor =>
  (appliedQuery dialect query sorts limit decodedCursor).bind fun q =>
  (exec q).bind fun rows =>
  let items := pageItems decodedCursor rows limit
  (resolvePageTokens items sorts cursorCodec decodedCursor
      (JsNum.lt limit { num := rows.length })).bind fun tokens =>
  .ok { items := items
        prevPage := tokens.prevPage
        nextPage := tokens.nextPage
        startCursor := tokens.startCursor
        endCursor := tokens.endCursor
        hasPrevPage := truthyStr tokens.prevPage
        hasNextPage := truthyStr tokens.nextPage }

/-- `paginate`'s `catch`: a `PaginationError` passes through unchanged,
anything else is wrapped once as `UNEXPECTED_ERROR` with the original
failure as `cause`. -/
def wrapPaginateError {ε : Type} : JsError ε → JsError ε
  | .pag m c cause => .pag m c cause
  | e => .pag "Failed to paginate" .UNEXPECTED_ERROR (some e)

/-- `paginate`: validate, then run the body with the wrapping `catch`
(`assertLimitSorts` runs before the `try` block, but it only ever throws
`PaginationError`s, which the wrapper passes through unchanged). -/
def paginate {Q V ε : Type} (dialect : PaginationDialect Q V ε)
    (exec : Q → Except (JsError ε) (List (Row V))) (query : Q)
    (sorts : List SortItem) (limit : JsNum) (cursor : Option CursorIncoming)
    (cursorCodec : CursorCodec V ε) : Except (JsError ε) (PaginatedResult V) :=
  (assertLimitSorts limit sorts).bind fun _ =>
    match paginateInner dialect exec query sorts limit cursor cursorCodec with
    | .ok r => .ok r
    | .error e => .error (wrapPaginateError e)

/-- `PaginatedResultWithEdges`. -/
structure PaginatedResultWithEdges (V : Type) where
  edges : List (Edge V)
  prevPage : Option String
  nextPage : Option String
  startCursor : Option String
  endCursor : Option String
  hasPrevPage : Bool
  hasNextPage : Bool

/-- `paginateWithEdges`'s `catch` around `resolveEdges`. -/
def wrapEdgesError {ε : Type} : JsError ε → JsError ε
  | .pag m c cause => .pag m c cause
  | e => .pag "Failed to generate edges" .UNEXPECTED_ERROR (some e)

/-- `paginateWithEdges`: run `paginate`, then attach per-row cursors. -/
def paginateWithEdges {Q V ε : Type} (dialect : PaginationDialect Q V ε)
    (exec : Q → Except (JsError ε) (List (Row V))) (query : Q)
    (sorts : List SortItem) (limit : JsNum) (cursor : Option CursorIncoming)
    (cursorCodec : CursorCodec V ε) : Except (JsError ε) (PaginatedResultWithEdges V) :=
  (paginate dialect exec query sorts limit cursor cursorCodec).bind fun r =>
    match resolveEdges r.items sorts cursorCodec with
    | .ok edges =>
      .ok { edges := edges
            prevPage := r.prevPage
            nextPage := r.nextPage
            startCursor := r.startCursor
            endCursor := r.endCursor
            hasPrevPage := r.hasPrevPage
            hasNextPage := r.hasNextPage }
    | .error e => .error (wrapEdgesError e)

/-! ## Helper lemmas -/

/-- `key in obj` agrees with presence of a `find?` hit. -/
theorem objHas_eq_isSome_find? {α : Type} (fields : List (String × α)) (key : String) :
    objHas fields key = (fields.find? (fun p => p.1 == key)).isSome := by
  induction fields with
  | nil => rfl
  | cons p rest ih =>
    simp only [objHas, List.any_cons]
    cases hp : (p.1 == key) with
    | true => simp [List.find?, hp]
    | false =>
      simp only [List.find?, hp, Bool.false_or]
      exact ih

/-- `obj[key]` is the value of the `find?` hit. -/
theorem objGetD_of_find? {α : Type} {fields : List (String × α)} {key : String}
    {entry : String × α} (hf : fields.find? (fun p => p.1 == key) = some entry)
    (d : α) : objGetD fields key d = entry.2 := by
  simp [objGetD, hf]

/-- The builder and the spec's predicate agree step by step (any fuel, any
index). -/
theorem predicateGo_eq_spec {V ε : Type} (sorts : List SortItem) (decoded : CursorPayload V) :
    ∀ (fuel idx : Nat),
      buildCursorPredicateGo (ε := ε) sorts decoded idx fuel =
        specLexPredicateGo sorts decoded idx fuel := by
  intro fuel
  induction fuel with
  | zero => intro idx; rfl
  | succ fuel ih =>
    intro idx
    cases hs : sorts[idx]? with
    | none => simp only [buildCursorPredicateGo, specLexPredicateGo, hs]
    | some sort =>
      simp only [buildCursorPredicateGo, specLexPredicateGo, hs]
      have hlt : idx < sorts.length := by
        rcases List.getElem?_eq_some.mp hs with ⟨h, _⟩
        exact h
      rw [objHas_eq_isSome_find?]
      cases hf : decoded.k.find? (fun p => p.1 == getSortOutput sort) with
      | none => simp
      | some entry =>
        simp only [Option.isSome_some, if_true]
        rw [objGetD_of_find? hf]
        by_cases hb : idx + 1 = sorts.length
        · have hb' : idx = sorts.length - 1 := by omega
          rw [if_pos hb', if_pos hb]
          cases hdir : applyDefaultDirection sort.dir <;> simp
        · have hb' : ¬ idx = sorts.length - 1 := by omega
          rw [if_neg hb', if_neg hb]
          rw [ih (idx + 1)]
          cases hrec : specLexPredicateGo (ε := ε) sorts decoded (idx + 1) fuel with
          | error e => simp [Except.bind]
          | ok next =>
            simp only [Except.bind]
            cases hnull : (entry.2).isNull <;>
              cases hdir : applyDefaultDirection sort.dir <;>
                simp [hnull, hdir]

/-- Validation success, characterised. -/
theorem assertLimitSorts_ok_iff {ε : Type} {limit : JsNum} {sorts : List SortItem} :
    assertLimitSorts (ε := ε) limit sorts = .ok () ↔
      ((limit.isInt && JsNum.lt 0 limit) = true ∧ sorts ≠ []) := by
  unfold assertLimitSorts
  by_cases hL : (limit.isInt && JsNum.lt 0 limit) = true
  · rw [if_pos hL]
    by_cases hS : sorts.length < 1
    · rw [if_pos hS]
      have : sorts = [] := by
        cases sorts with
        | nil => rfl
        | cons a l => simp at hS
      simp [hL, this]
    · rw [if_neg hS]
      have : sorts ≠ [] := by
        intro h
        exact hS (by simp [h])
      simp [hL, this]
  · rw [if_neg hL]
    simp [hL]

/-- `paginateInner` successes, decomposed into the successes of its four
steps. -/
theorem paginateInner_ok_iff {Q V ε : Type} {dialect : PaginationDialect Q V ε}
    {exec : Q → Except (JsError ε) (List (Row V))} {query : Q} {sorts : List SortItem}
    {limit : JsNum} {cursor : Option CursorIncoming} {cursorCodec : CursorCodec V ε}
    {res : PaginatedResult V} :
    paginateInner dialect exec query sorts limit cursor cursorCodec = .ok res ↔
      ∃ d q rows tokens,
        decodeCursorOpt cursor cursorCodec = .ok d ∧
        appliedQuery dialect query sorts limit d = .ok q ∧
        exec q = .ok rows ∧
        resolvePageTokens (pageItems d rows limit) sorts cursorCodec d
          (JsNum.lt limit { num := rows.length }) = .ok tokens ∧
        res = { items := pageItems d rows limit
                prevPage := tokens.prevPage
                nextPage := tokens.nextPage
                startCursor := tokens.startCursor
                endCursor := tokens.endCursor
                hasPrevPage := truthyStr tokens.prevPage
                hasNextPage := truthyStr tokens.nextPage } := by
  constructor
  · intro h
    unfold paginateInner at h
    cases hd : decodeCursorOpt cursor cursorCodec with
    | error e => rw [hd] at h; exact absurd h (by simp [Except.bind])
    | ok d =>
      rw [hd] at h
      simp only [Except.bind] at h
      cases hq : appliedQuery dialect query sorts limit d with
      | error e => rw [hq] at h; exact absurd h (by simp)
      | ok q =>
        rw [hq] at h
        simp only at h
        cases hr : exec q with
        | error e => rw [hr] at h; exact absurd h (by simp)
        | ok rows =>
          rw [hr] at h
          simp only at h
          cases ht : resolvePageTokens (pageItems d rows limit) sorts cursorCodec d
              (JsNum.lt limit { num := rows.length }) with
          | error e => rw [ht] at h; exact absurd h (by simp)
          | ok tokens =>
            rw [ht] at h
            simp only [Except.ok.injEq] at h
            exact ⟨d, q, rows, tokens, rfl, hq, hr, ht, h.symm⟩
  · rintro ⟨d, q, rows, tokens, hd, hq, hr, ht, rfl⟩
    unfold paginateInner
    rw [hd]
    simp only [Except.bind]
    rw [hq]
    simp only
    rw [hr]
    simp only
    rw [ht]

/-- `paginate` successes: validation passed and the body succeeded. -/
theorem paginate_ok_iff {Q V ε : Type} {dialect : PaginationDialect Q V ε}
    {exec : Q → Except (JsError ε) (List (Row V))} {query : Q} {sorts : List SortItem}
    {limit : JsNum} {cursor : Option CursorIncoming} {cursorCodec : CursorCodec V ε}
    {res : PaginatedResult V} :
    paginate dialect exec query sorts limit cursor cursorCodec = .ok res ↔
      (assertLimitSorts (ε := ε) limit sorts = .ok () ∧
        paginateInner dialect exec query sorts limit cursor cursorCodec = .ok res) := by
  unfold paginate
  cases ha : assertLimitSorts (ε := ε) limit sorts with
  | error e => simp [Except.bind]
  | ok u =>
    cases u
    simp only [Except.bind, true_and]
    cases hi : paginateInner dialect exec query sorts limit cursor cursorCodec with
    | error e => simp
    | ok r => simp

/-- `paginate` failures: either validation failed, or the body failed and
the error went through the wrapping `catch`. -/
theorem paginate_error_iff {Q V ε : Type} {dialect : PaginationDialect Q V ε}
    {exec : Q → Except (JsError ε) (List (Row V))} {query : Q} {sorts : List SortItem}
    {limit : JsNum} {cursor : Option CursorIncoming} {cursorCodec : CursorCodec V ε}
    {e : JsError ε} :
    paginate dialect exec query sorts limit cursor cursorCodec = .error e ↔
      (assertLimitSorts (ε := ε) limit sorts = .error e ∨
        (assertLimitSorts (ε := ε) limit sorts = .ok () ∧
          ∃ e0, paginateInner dialect exec query sorts limit cursor cursorCodec = .error e0 ∧
            e = wrapPaginateError e0)) := by
  unfold paginate
  cases ha : assertLimitSorts (ε := ε) limit sorts with
  | error e1 => simp [Except.bind, eq_comm]
  | ok u =>
    cases u
    simp only [Except.bind, false_or, true_and]
    cases hi : paginateInner dialect exec query sorts limit cursor cursorCodec with
    | error e0 => simp [eq_comm]
    | ok r => simp

/-- The page never exceeds the validated limit. -/
theorem pageItems_length_le {V : Type} (d : Option (DecodedCursor V)) (rows : List (Row V))
    (limit : JsNum) : (pageItems d rows limit).length ≤ limit.toIntTrunc.toNat := by
  unfold pageItems
  cases d with
  | none => simp [List.length_take]
  | some dc => cases dc <;> simp [List.length_take]

/-- With the recording dialect, the order-by clause a successful
`appliedQuery` leaves on the query is the effective sort-set. -/
theorem appliedQuery_recDialect_sorts {V ε : Type} (query : RecQuery V)
    (sorts : List SortItem) (limit : JsNum) (d : Option (DecodedCursor V))
    (q : RecQuery V) :
    appliedQuery (recDialect V ε) query sorts limit d = .ok q →
    q.sortsApplied = some (match d with
      | some (.prev _) => invertSorts sorts
      | _ => sorts) := by
  intro h
  cases d with
  | none =>
    simp only [appliedQuery, recDialect, Except.ok.injEq] at h
    subst h
    rfl
  | some dc =>
    cases dc with
    | offset o =>
      simp only [appliedQuery, recDialect, Except.ok.injEq] at h
      subst h
      rfl
    | next p =>
      simp only [appliedQuery, recDialect] at h
      by_cases hsig : p.sig ≠ sortSignature sorts
      · rw [if_pos hsig] at h
        cases h
      · rw [if_neg hsig] at h
        unfold baseApplyCursor at h
        cases hb : buildCursorPredicateRecursive (ε := ε) sorts p with
        | error e => rw [hb] at h; cases h
        | ok e =>
          rw [hb] at h
          simp only [Except.map, Except.ok.injEq] at h
          subst h
          rfl
    | prev p =>
      simp only [appliedQuery, recDialect] at h
      by_cases hsig : p.sig ≠ sortSignature sorts
      · rw [if_pos hsig] at h
        cases h
      · rw [if_neg hsig] at h
        unfold baseApplyCursor at h
        cases hb : buildCursorPredicateRecursive (ε := ε) (invertSorts sorts) p with
        | error e => rw [hb] at h; cases h
        | ok e =>
          rw [hb] at h
          simp only [Except.map, Except.ok.injEq] at h
          subst h
          rfl

/-! ## Claims -/

/-- **C1**: for every sort-set and decoded payload, the recursive builder
produces exactly the spec's lexicographic predicate (operator `>` for
Ascending — the default — and `<` for Descending; `column <cmp> value` at
the final position; `(column IS NULL AND next) OR column IS NOT NULL`
resp. `column IS NULL AND next` for a null stored value at a non-final
position under Ascending resp. Descending; and
`(column <cmp> value) OR (column = value AND next)` with the extra
`column IS NULL` disjunct exactly under Descending for a non-null value);
and a position whose outputKey is missing from the payload's `k` map makes
the builder fail with an `INVALID_TOKEN` error. -/
theorem buildCursorPredicate_matches_spec {V ε : Type} :
    (∀ (sorts : List SortItem) (decoded : CursorPayload V) (idx : Nat),
      buildCursorPredicateRecursive (ε := ε) sorts decoded idx =
        specLexPredicate sorts decoded idx) ∧
    (∀ (sorts : List SortItem) (decoded : CursorPayload V) (idx : Nat) (sort : SortItem),
      sorts[idx]? = some sort →
      objHas decoded.k (getSortOutput sort) = false →
      buildCursorPredicateRecursive (ε := ε) sorts decoded idx =
        .error (.pag (missingKeyMessage (getSortOutput sort)) .INVALID_TOKEN none)) := by
  constructor
  · intro sorts decoded idx
    exact predicateGo_eq_spec sorts decoded _ idx
  · intro sorts decoded idx sort hs hmiss
    have hlt : idx < sorts.length := by
      rcases List.getElem?_eq_some.mp hs with ⟨h, _⟩
      exact h
    unfold buildCursorPredicateRecursive
    have hfuel : sorts.length + 1 - idx = (sorts.length - idx) + 1 := by omega
    rw [hfuel]
    simp only [buildCursorPredicateGo, hs, hmiss]
    simp

/-- Witness for C1 at a two-column sort-set: the builder agrees with the
spec's predicate, and a payload lacking the first column's key yields
`INVALID_TOKEN`. -/
theorem buildCursorPredicate_matches_spec_witness :
    buildCursorPredicateRecursive (V := Unit) (ε := Unit)
        [⟨"a", none, none⟩, ⟨"id", none, none⟩] ⟨"s", [("id", DynV.vnum 5)]⟩ 0 =
      specLexPredicate [⟨"a", none, none⟩, ⟨"id", none, none⟩] ⟨"s", [("id", DynV.vnum 5)]⟩ 0 ∧
    buildCursorPredicateRecursive (V := Unit) (ε := Unit)
        [⟨"a", none, none⟩, ⟨"id", none, none⟩] ⟨"s", [("id", DynV.vnum 5)]⟩ 0 =
      .error (.pag (missingKeyMessage "a") .INVALID_TOKEN none) :=
  ⟨buildCursorPredicate_matches_spec.1 _ _ _,
   buildCursorPredicate_matches_spec.2 _ _ 0 ⟨"a", none, none⟩ rfl rfl⟩

/-- **C2**: with a `prev` cursor the query is ordered by the sort-set with
every direction flipped (absent counting as Ascending and becoming
Descending, Descending becoming Ascending) and the returned items are the
first `limit` executor rows reversed; with a `next` cursor, an offset
cursor or no cursor the sort-set is applied unchanged and the items are
the first `limit` rows in fetched order; and in every case at most `limit`
items are returned (the overfetched row is dropped). -/
theorem paginate_sorts_and_items {V ε : Type} :
    (∀ (query : RecQuery V) (sorts : List SortItem) (limit : JsNum)
        (d : Option (DecodedCursor V)) (q : RecQuery V),
      appliedQuery (recDialect V ε) query sorts limit d = .ok q →
      q.sortsApplied = some (match d with
        | some (.prev _) => invertSorts sorts
        | _ => sorts)) ∧
    (∀ sorts : List SortItem,
      (invertSorts sorts).map SortItem.dir = sorts.map (fun s =>
        some (match applyDefaultDirection s.dir with
          | .asc => .desc
          | .desc => .asc))) ∧
    (∀ (sorts : List SortItem) (limit : JsNum) (tok : String) (codec : CursorCodec V ε)
        (rows : List (Row V)) (res : PaginatedResult V),
      paginate (recDialect V ε) (fun _ => .ok rows) {} sorts limit
          (some { prevPage := some tok }) codec = .ok res →
      res.items = (rows.take limit.toIntTrunc.toNat).reverse) ∧
    (∀ (sorts : List SortItem) (limit : JsNum) (tok : String) (codec : CursorCodec V ε)
        (rows : List (Row V)) (res : PaginatedResult V),
      paginate (recDialect V ε) (fun _ => .ok rows) {} sorts limit
          (some { nextPage := some tok }) codec = .ok res →
      res.items = rows.take limit.toIntTrunc.toNat) ∧
    (∀ (sorts : List SortItem) (limit : JsNum) (o : JsNum) (codec : CursorCodec V ε)
        (rows : List (Row V)) (res : PaginatedResult V),
      paginate (recDialect V ε) (fun _ => .ok rows) {} sorts limit
          (some { offset := some o }) codec = .ok res →
      res.items = rows.take limit.toIntTrunc.toNat) ∧
    (∀ (sorts : List SortItem) (limit : JsNum) (codec : CursorCodec V ε)
        (rows : List (Row V)) (res : PaginatedResult V),
      paginate (recDialect V ε) (fun _ => .ok rows) {} sorts limit none codec = .ok res →
      res.items = rows.take limit.toIntTrunc.toNat) ∧
    (∀ {Q : Type} (dialect : PaginationDialect Q V ε)
        (exec : Q → Except (JsError ε) (List (Row V))) (query : Q)
        (sorts : List SortItem) (limit : JsNum) (cursor : Option CursorIncoming)
        (codec : CursorCodec V ε) (res : PaginatedResult V),
      paginate dialect exec query sorts limit cursor codec = .ok res →
      res.items.length ≤ limit.toIntTrunc.toNat) := by
  refine ⟨appliedQuery_recDialect_sorts, ?_, ?_, ?_, ?_, ?_, ?_⟩
  · intro sorts
    unfold invertSorts
    rw [List.map_map]
    refine List.map_congr_left ?_
    intro s _
    cases hdir : applyDefaultDirection s.dir <;> simp [hdir]
  · intro sorts limit tok codec rows res h
    rcases paginate_ok_iff.mp h with ⟨-, hin⟩
    rcases paginateInner_ok_iff.mp hin with ⟨d, q, rows', tokens, hd, -, hr, -, hres⟩
    cases hr
    simp only [decodeCursorOpt, decodeCursor] at hd
    cases hp : decodeCursorPayload tok codec with
    | error e => rw [hp] at hd; cases hd
    | ok p =>
      rw [hp] at hd
      simp only [Except.map, Except.ok.injEq] at hd
      subst hd
      subst hres
      rfl
  · intro sorts limit tok codec rows res h
    rcases paginate_ok_iff.mp h with ⟨-, hin⟩
    rcases paginateInner_ok_iff.mp hin with ⟨d, q, rows', tokens, hd, -, hr, -, hres⟩
    cases hr
    simp only [decodeCursorOpt, decodeCursor] at hd
    cases hp : decodeCursorPayload tok codec with
    | error e => rw [hp] at hd; cases hd
    | ok p =>
      rw [hp] at hd
      simp only [Except.map, Except.ok.injEq] at hd
      subst hd
      subst hres
      rfl
  · intro sorts limit o codec rows res h
    rcases paginate_ok_iff.mp h with ⟨-, hin⟩
    rcases paginateInner_ok_iff.mp hin with ⟨d, q, rows', tokens, hd, -, hr, -, hres⟩
    cases hr
    simp only [decodeCursorOpt, decodeCursor, Except.map, Except.ok.injEq] at hd
    subst hd
    subst hres
    rfl
  · intro sorts limit codec rows res h
    rcases paginate_ok_iff.mp h with ⟨-, hin⟩
    rcases paginateInner_ok_iff.mp hin with ⟨d, q, rows', tokens, hd, -, hr, -, hres⟩
    cases hr
    simp only [decodeCursorOpt, Except.ok.injEq] at hd
    subst hd
    subst hres
    rfl
  · intro Q dialect exec query sorts limit cursor codec res h
    rcases paginate_ok_iff.mp h with ⟨-, hin⟩
    rcases paginateInner_ok_iff.mp hin with ⟨d, q, rows, tokens, -, -, -, -, hres⟩
    subst hres
    exact pageItems_length_le d rows limit

/-- Concrete single-column sort-set for the C2 witness. -/
def c2Sorts : List SortItem := [⟨"id", none, none⟩]

/-- Rows as a backward fetch returns them (inverted order). -/
def c2Rows : List (Row Unit) := [[("id", DynV.vnum 2)], [("id", DynV.vnum 1)]]

/-- A cursor codec decoding every token to a payload carrying the matching
signature. -/
def c2Codec : CursorCodec Unit Unit where
  encode _ := .ok "tok"
  decode _ := .ok (.vobj [("sig", .vstr (sortSignature c2Sorts)), ("k", .vobj [("id", DynV.vnum 2)])])

/-- The result of the backward page in the C2 witness. -/
def c2PrevRes : PaginatedResult Unit :=
  { items := [[("id", DynV.vnum 2)]], prevPage := some "tok", nextPage := some "tok",
    startCursor := some "tok", endCursor := some "tok", hasPrevPage := true, hasNextPage := true }

/-- The empty-result record shared by the cheap C2 witness instances. -/
def c2EmptyRes : PaginatedResult Unit :=
  { items := [], prevPage := none, nextPage := none, startCursor := none, endCursor := none,
    hasPrevPage := false, hasNextPage := false }

/-- Witness for C2: one concrete instance per clause (a backward page over
two fetched rows with `limit = 1`, plus forward/offset/first pages over an
empty result). -/
theorem paginate_sorts_and_items_witness :
    (appliedQuery (recDialect Unit Unit) {} c2Sorts 1 none =
        .ok { sortsApplied := some c2Sorts, limitApplied := some (JsNum.add 1 1),
              limitCursorType := none } ∧
      ({ sortsApplied := some c2Sorts, limitApplied := some (JsNum.add 1 1),
         limitCursorType := none } : RecQuery Unit).sortsApplied = some c2Sorts) ∧
    ((invertSorts c2Sorts).map SortItem.dir = [some .desc]) ∧
    (paginate (recDialect Unit Unit) (fun _ => .ok c2Rows) {} c2Sorts 1
        (some { prevPage := some "t" }) c2Codec = .ok c2PrevRes ∧
      c2PrevRes.items = (c2Rows.take (1 : JsNum).toIntTrunc.toNat).reverse) ∧
    (paginate (recDialect Unit Unit) (fun _ => .ok []) {} c2Sorts 1
        (some { nextPage := some "t" }) c2Codec = .ok c2EmptyRes ∧
      c2EmptyRes.items = ([] : List (Row Unit)).take (1 : JsNum).toIntTrunc.toNat) ∧
    (paginate (recDialect Unit Unit) (fun _ => .ok []) {} c2Sorts 1
        (some { offset := some 0 }) c2Codec = .ok c2EmptyRes) ∧
    (paginate (recDialect Unit Unit) (fun _ => .ok []) {} c2Sorts 1 none c2Codec =
        .ok c2EmptyRes ∧
      c2EmptyRes.items.length ≤ (1 : JsNum).toIntTrunc.toNat) := by
  refine ⟨⟨rfl, (paginate_sorts_and_items (V := Unit) (ε := Unit)).1 {} c2Sorts 1 none _ rfl⟩,
    (paginate_sorts_and_items (V := Unit) (ε := Unit)).2.1 c2Sorts, ⟨?_, ?_⟩, ⟨?_, ?_⟩, ?_, ⟨?_, ?_⟩⟩
  · rfl
  · exact (paginate_sorts_and_items (V := Unit) (ε := Unit)).2.2.1 c2Sorts 1 "t" c2Codec c2Rows
      c2PrevRes rfl
  · rfl
  · exact (paginate_sorts_and_items (V := Unit) (ε := Unit)).2.2.2.1 c2Sorts 1 "t" c2Codec []
      c2EmptyRes rfl
  · rfl
  · rfl
  · exact (paginate_sorts_and_items (V := Unit) (ε := Unit)).2.2.2.2.2.2 (recDialect Unit Unit)
      (fun _ => .ok []) {} c2Sorts 1 none c2Codec c2EmptyRes rfl

/-- Overfetched rows for the C3 counterexample. -/
def c3Rows : List (Row Unit) := [[("id", DynV.vnum 1)], [("id", DynV.vnum 2)]]

/-- A legal `Codec<any, string>` whose `encode` returns the empty string. -/
def c3Codec : CursorCodec Unit Unit where
  encode _ := .ok ""
  decode _ := .error (.ext ())

/-- Counterexample to C3: with a codec whose `encode` yields `""`, an
overfetched first page has `nextPage` present (the empty-string token) but
`hasNextPage = false`, because the code computes `hasNextPage` as JS
truthiness (`!!nextPage`) rather than presence — refuting "hasNextPage is
true exactly when nextPage is present". -/
theorem paginate_truthiness_cex :
    paginate (recDialect Unit Unit) (fun _ => .ok c3Rows) {} [⟨"id", none, none⟩] 1 none
        c3Codec =
      .ok { items := [[("id", DynV.vnum 1)]], prevPage := none, nextPage := some "",
            startCursor := some "", endCursor := some "", hasPrevPage := false,
            hasNextPage := false } ∧
    (some "" : Option String) ≠ none :=
  ⟨rfl, by decide⟩

/-- **C3 (amended)**: `startCursor`/`endCursor` encode
`{sig: sortSignature(sortSet), k: outputKey values}` of the first and last
element of `items` (not of the raw rows); empty `items` leaves every
outgoing token absent; `nextPage` equals `endCursor` exactly when
`(inverted OR overFetched)` and `prevPage` equals `startCursor` exactly
when `((NOT inverted OR overFetched) AND NOT isFirst)`, the first page
always leaving `prevPage` absent — but `hasNextPage`/`hasPrevPage` are the
JS truthiness of the tokens: true exactly when the token is present and
non-empty (not bare presence). -/
theorem resolvePageTokens_spec {V ε : Type} :
    (∀ (sorts : List SortItem) (codec : CursorCodec V ε) (d : Option (DecodedCursor V))
        (over : Bool),
      resolvePageTokens [] sorts codec d over =
        .ok { startCursor := none, endCursor := none, nextPage := none, prevPage := none }) ∧
    (∀ (rows : List (Row V)) (sorts : List SortItem) (codec : CursorCodec V ε)
        (d : Option (DecodedCursor V)) (over : Bool) (f l : Row V) (sc ec : String),
      rows.head? = some f → rows.getLast? = some l →
      codec.encode (resolveCursor f sorts).toDyn = .ok sc →
      codec.encode (resolveCursor l sorts).toDyn = .ok ec →
      resolvePageTokens rows sorts codec d over =
        .ok { startCursor := some sc, endCursor := some ec,
              nextPage := if isPrevCursor d || over then some ec else none,
              prevPage := if (!isPrevCursor d || over) && !isFirstCursor d then some sc
                else none }) ∧
    (∀ (rows : List (Row V)) (sorts : List SortItem) (codec : CursorCodec V ε) (over : Bool)
        (out : CursorOutgoing),
      resolvePageTokens rows sorts codec none over = .ok out → out.prevPage = none) ∧
    (∀ {Q : Type} (dialect : PaginationDialect Q V ε)
        (exec : Q → Except (JsError ε) (List (Row V))) (query : Q) (sorts : List SortItem)
        (limit : JsNum) (cursor : Option CursorIncoming) (codec : CursorCodec V ε)
        (res : PaginatedResult V),
      paginate dialect exec query sorts limit cursor codec = .ok res →
      ∃ d rows tokens,
        decodeCursorOpt cursor codec = .ok d ∧
        res.items = pageItems d rows limit ∧
        resolvePageTokens res.items sorts codec d (JsNum.lt limit { num := rows.length }) =
          .ok tokens ∧
        res.startCursor = tokens.startCursor ∧ res.endCursor = tokens.endCursor ∧
        res.nextPage = tokens.nextPage ∧ res.prevPage = tokens.prevPage ∧
        res.hasNextPage = truthyStr res.nextPage ∧
        res.hasPrevPage = truthyStr res.prevPage) := by
  refine ⟨?_, ?_, ?_, ?_⟩
  · intro sorts codec d over
    rfl
  · intro rows sorts codec d over f l sc ec hf hl hsc hec
    have hne : rows.length ≠ 0 := by
      cases rows with
      | nil => cases hf
      | cons a t => simp
    unfold resolvePageTokens
    rw [if_neg hne, hf, hl]
    simp only [encodeRowCursor, hsc, hec, Except.map, Except.bind]
  · intro rows sorts codec over out h
    unfold resolvePageTokens at h
    by_cases hz : rows.length = 0
    · rw [if_pos hz] at h
      cases h
      rfl
    · rw [if_neg hz] at h
      cases hs : encodeRowCursor codec sorts rows.head? with
      | error e => rw [hs] at h; cases h
      | ok sc =>
        rw [hs] at h
        simp only [Except.bind] at h
        cases he : encodeRowCursor codec sorts rows.getLast? with
        | error e => rw [he] at h; cases h
        | ok ec =>
          rw [he] at h
          simp only [Except.ok.injEq] at h
          subst h
          simp [isPrevCursor, isFirstCursor]
  · intro Q dialect exec query sorts limit cursor codec res h
    rcases paginate_ok_iff.mp h with ⟨-, hin⟩
    rcases paginateInner_ok_iff.mp hin with ⟨d, q, rows, tokens, hd, -, -, ht, hres⟩
    subst hres
    exact ⟨d, rows, tokens, hd, rfl, ht, rfl, rfl, rfl, rfl, rfl, rfl⟩

/-- Single-row page for the C3 witness. -/
def c3wRows : List (Row Unit) := [[("id", DynV.vnum 1)]]

/-- A codec with a constant non-empty token for the C3 witness. -/
def c3wCodec : CursorCodec Unit Unit where
  encode _ := .ok "tok"
  decode _ := .error (.ext ())

/-- The empty first-page result for the C3 witness. -/
def c3wEmpty : PaginatedResult Unit :=
  { items := [], prevPage := none, nextPage := none, startCursor := none, endCursor := none,
    hasPrevPage := false, hasNextPage := false }

/-- Witness for C3: a non-overfetched single-row first page carries both
cursors and no prev/next tokens, the first page's `prevPage` is absent,
and a successful `paginate` run satisfies the token derivation clause. -/
theorem resolvePageTokens_spec_witness :
    (resolvePageTokens c3wRows [⟨"id", none, none⟩] c3wCodec
        (none : Option (DecodedCursor Unit)) false =
      .ok { startCursor := some "tok", endCursor := some "tok", nextPage := none,
            prevPage := none }) ∧
    (({ startCursor := some "tok", endCursor := some "tok", nextPage := none,
        prevPage := none } : CursorOutgoing).prevPage = none) ∧
    (∃ d rows tokens,
      decodeCursorOpt (V := Unit) none c3wCodec = .ok d ∧
      c3wEmpty.items = pageItems d rows 1 ∧
      resolvePageTokens c3wEmpty.items [⟨"id", none, none⟩] c3wCodec d
          (JsNum.lt 1 { num := rows.length }) = .ok tokens ∧
      c3wEmpty.startCursor = tokens.startCursor ∧ c3wEmpty.endCursor = tokens.endCursor ∧
      c3wEmpty.nextPage = tokens.nextPage ∧ c3wEmpty.prevPage = tokens.prevPage ∧
      c3wEmpty.hasNextPage = truthyStr c3wEmpty.nextPage ∧
      c3wEmpty.hasPrevPage = truthyStr c3wEmpty.prevPage) :=
  ⟨(resolvePageTokens_spec (V := Unit) (ε := Unit)).2.1 c3wRows [⟨"id", none, none⟩] c3wCodec
      none false [("id", DynV.vnum 1)] [("id", DynV.vnum 1)] "tok" "tok" rfl rfl rfl rfl,
   (resolvePageTokens_spec (V := Unit) (ε := Unit)).2.2.1 c3wRows [⟨"id", none, none⟩] c3wCodec
      false _ rfl,
   (resolvePageTokens_spec (V := Unit) (ε := Unit)).2.2.2 (recDialect Unit Unit)
      (fun _ => .ok []) {} [⟨"id", none, none⟩] 1 none c3wCodec c3wEmpty rfl⟩

/-- SHA-256 digests have 32 bytes. -/
theorem sha256_length (msg : List Nat) : (sha256 msg).length = 32 := by
  simp only [sha256, List.length_flatMap]
  rfl

/-- Hex rendering doubles the byte count. -/
theorem hexChars_length (bytes : List Nat) :
    (bytes.flatMap (fun b => [hexDigit (b / 16), hexDigit b])).length = 2 * bytes.length := by
  induction bytes with
  | nil => rfl
  | cons b t ih =>
    simp only [List.flatMap_cons, List.length_append, List.length_cons, List.length_nil, ih]
    omega

/-- A sort signature always has 8 characters. -/
theorem sortSignature_length (sorts : List SortItem) : (sortSignature sorts).length = 8 := by
  unfold sortSignature
  have hlen : ((hexOfBytes (sha256 (utf8Bytes (sigString sorts)))).toList).length = 64 := by
    show ((sha256 (utf8Bytes (sigString sorts))).flatMap
      (fun b => [hexDigit (b / 16), hexDigit b])).length = 64
    rw [hexChars_length, sha256_length]
  have hmk : ∀ l : List Char, (List.asString l).length = l.length := fun l => rfl
  rw [hmk, List.length_take, hlen]
  omega

/-- Every hex digit is drawn from the lowercase hex alphabet. -/
theorem hexDigit_mem (n : Nat) : hexDigit n ∈ "0123456789abcdef".toList := by
  unfold hexDigit
  have h : n % 16 < 16 := by omega
  generalize hm : n % 16 = m at h
  interval_cases m <;> decide

/-- Counterexample to C4: `sortSignature` hashes the raw `col` string, not
the outputKey.  The sort-sets `[{col: "t.id"}]` and `[{col: "id"}]` have
equal outputKeys (`"id"`) and equal effective directions but different
signatures; conversely `[{col: "t.id"}]` and `[{col: "x", output: "t.id"}]`
have different outputKey sequences but the same signature (both hash
`"t.id:asc"`). -/
theorem sortSignature_outputKey_cex :
    (getSortOutput ⟨"t.id", none, none⟩ = getSortOutput ⟨"id", none, none⟩ ∧
      applyDefaultDirection (SortItem.dir ⟨"t.id", none, none⟩) =
        applyDefaultDirection (SortItem.dir ⟨"id", none, none⟩) ∧
      sortSignature [⟨"t.id", none, none⟩] ≠ sortSignature [⟨"id", none, none⟩]) ∧
    (getSortOutput ⟨"t.id", none, none⟩ ≠ getSortOutput ⟨"x", some "t.id", none⟩ ∧
      sortSignature [⟨"t.id", none, none⟩] = sortSignature [⟨"x", some "t.id", none⟩]) := by
  refine ⟨⟨rfl, rfl, by decide⟩, by decide, ?_⟩
  show sortSignature _ = sortSignature _
  unfold sortSignature
  rw [show sigString [⟨"t.id", none, none⟩] = sigString [⟨"x", some "t.id", none⟩] from rfl]

/-- **C4 (amended)**: the sort signature is a deterministic 8-hex-character
function of the sequence of (label, effective direction) pairs, where the
label is the `output` field if present and otherwise the raw `col` string
(qualification included) — not the unqualified outputKey: two sort-sets
whose label/direction sequences agree get the same signature, and equal
outputKey sequences do not determine it (nor do different outputKey
sequences force different signatures, the 8 hex characters being a
truncated hash of the label sequence). -/
theorem sortSignature_spec :
    (∀ s t : List SortItem,
      s.map (fun i => (sigLabel i, applyDefaultDirection i.dir)) =
        t.map (fun i => (sigLabel i, applyDefaultDirection i.dir)) →
      sortSignature s = sortSignature t) ∧
    (∀ sorts : List SortItem, (sortSignature sorts).length = 8 ∧
      ∀ c ∈ (sortSignature sorts).toList, c ∈ "0123456789abcdef".toList) := by
  constructor
  · intro s t h
    have h2 := congrArg (List.map (fun p : String × Direction => p.1 ++ ":" ++ dirName p.2)) h
    rw [List.map_map, List.map_map] at h2
    have hsig : sigString s = sigString t := congrArg (String.intercalate "|") h2
    unfold sortSignature
    rw [hsig]
  · intro sorts
    refine ⟨sortSignature_length sorts, ?_⟩
    intro c hc
    have hAs : ∀ l : List Char, (List.asString l).toList = l := fun l => rfl
    unfold sortSignature at hc
    rw [hAs] at hc
    have hc' : c ∈ (sha256 (utf8Bytes (sigString sorts))).flatMap
        (fun b => [hexDigit (b / 16), hexDigit b]) := List.mem_of_mem_take hc
    rcases List.mem_flatMap.mp hc' with ⟨b, -, hb⟩
    simp only [List.mem_cons, List.not_mem_nil, or_false] at hb
    rcases hb with hb | hb <;> subst hb <;> exact hexDigit_mem _

/-- Witness for C4: two different sort-sets with the same label and
effective direction (one explicit `asc`, one defaulted) share a signature. -/
theorem sortSignature_spec_witness :
    ([⟨"x", some "lbl", some .asc⟩] : List SortItem).map
        (fun i => (sigLabel i, applyDefaultDirection i.dir)) =
      ([⟨"y", some "lbl", none⟩] : List SortItem).map
        (fun i => (sigLabel i, applyDefaultDirection i.dir)) ∧
    sortSignature [⟨"x", some "lbl", some .asc⟩] = sortSignature [⟨"y", some "lbl", none⟩] :=
  ⟨rfl, sortSignature_spec.1 _ _ rfl⟩

/-- A decode failure short-circuits `paginateInner` with the same error. -/
theorem paginateInner_error_decode {Q V ε : Type} {dialect : PaginationDialect Q V ε}
    {exec : Q → Except (JsError ε) (List (Row V))} {query : Q} {sorts : List SortItem}
    {limit : JsNum} {cursor : Option CursorIncoming} {codec : CursorCodec V ε}
    {e0 : JsError ε} (h : decodeCursorOpt cursor codec = .error e0) :
    paginateInner dialect exec query sorts limit cursor codec = .error e0 := by
  unfold paginateInner
  rw [h]
  rfl

/-- A query-building failure short-circuits `paginateInner`. -/
theorem paginateInner_error_applied {Q V ε : Type} {dialect : PaginationDialect Q V ε}
    {exec : Q → Except (JsError ε) (List (Row V))} {query : Q} {sorts : List SortItem}
    {limit : JsNum} {cursor : Option CursorIncoming} {codec : CursorCodec V ε}
    {d : Option (DecodedCursor V)} {e0 : JsError ε}
    (h1 : decodeCursorOpt cursor codec = .ok d)
    (h2 : appliedQuery dialect query sorts limit d = .error e0) :
    paginateInner dialect exec query sorts limit cursor codec = .error e0 := by
  unfold paginateInner
  rw [h1]
  simp only [Except.bind]
  rw [h2]

/-- A body failure surfaces through validation and the wrapping `catch`. -/
theorem paginate_error_of_inner {Q V ε : Type} {dialect : PaginationDialect Q V ε}
    {exec : Q → Except (JsError ε) (List (Row V))} {query : Q} {sorts : List SortItem}
    {limit : JsNum} {cursor : Option CursorIncoming} {codec : CursorCodec V ε}
    {e0 : JsError ε} (hL : (limit.isInt && JsNum.lt 0 limit) = true) (hS : sorts ≠ [])
    (hin : paginateInner dialect exec query sorts limit cursor codec = .error e0) :
    paginate dialect exec query sorts limit cursor codec =
      .error (wrapPaginateError e0) :=
  paginate_error_iff.mpr (Or.inr ⟨assertLimitSorts_ok_iff.mpr ⟨hL, hS⟩, e0, hin, rfl⟩)

/-- The codec for the C5 counterexample: its `decode` rejects with a plain
(non-`PaginationError`) failure, like the default superjson codec does on
a malformed token. -/
def c5Codec : CursorCodec Unit Unit where
  encode _ := .ok "tok"
  decode _ := .error (.ext ())

/-- Counterexample to C5: when the cursor codec's `decode` fails with an
ordinary error, `paginate` fails with `UNEXPECTED_ERROR` (the catch-all
wrap), not with `INVALID_TOKEN` as claimed. -/
theorem paginate_decode_unexpected_cex :
    paginate (recDialect Unit Unit) (fun _ => .ok []) {} [⟨"id", none, none⟩] 1
        (some { nextPage := some "x" }) c5Codec =
      .error (.pag "Failed to paginate" .UNEXPECTED_ERROR (some (.ext ()))) ∧
    ErrorCode.UNEXPECTED_ERROR ≠ ErrorCode.INVALID_TOKEN :=
  ⟨rfl, by decide⟩

/-- **C5 (amended)**: for an incoming `nextPage`/`prevPage` token (with
valid limit and non-empty sorts), a codec-decode failure or a payload
failing the `CursorPayload` schema surfaces through the catch-all wrap —
`UNEXPECTED_ERROR` with the original failure as cause, unless the failure
is already a `PaginationError`, which passes through unchanged — while a
decoded payload whose `sig` differs from the signature of the request's
sort-set is rejected with `INVALID_TOKEN` before any predicate is
applied. -/
theorem paginate_invalid_cursor_spec {Q V ε : Type} :
    (∀ (dialect : PaginationDialect Q V ε)
        (exec : Q → Except (JsError ε) (List (Row V))) (query : Q)
        (sorts : List SortItem) (limit : JsNum) (tok : String) (codec : CursorCodec V ε)
        (e0 : JsError ε),
      (limit.isInt && JsNum.lt 0 limit) = true → sorts ≠ [] →
      decodeCursorPayload tok codec = .error e0 →
      paginate dialect exec query sorts limit (some { nextPage := some tok }) codec =
        .error (wrapPaginateError e0)) ∧
    (∀ (dialect : PaginationDialect Q V ε)
        (exec : Q → Except (JsError ε) (List (Row V))) (query : Q)
        (sorts : List SortItem) (limit : JsNum) (tok : String) (codec : CursorCodec V ε)
        (e0 : JsError ε),
      (limit.isInt && JsNum.lt 0 limit) = true → sorts ≠ [] →
      decodeCursorPayload tok codec = .error e0 →
      paginate dialect exec query sorts limit (some { prevPage := some tok }) codec =
        .error (wrapPaginateError e0)) ∧
    (∀ (tok : String) (codec : CursorCodec V ε) (v : DynV V) (ez : JsError ε),
      codec.decode tok = .ok v → parseCursorPayload v = .error ez →
      decodeCursorPayload tok codec = .error ez) ∧
    (∀ (dialect : PaginationDialect Q V ε)
        (exec : Q → Except (JsError ε) (List (Row V))) (query : Q)
        (sorts : List SortItem) (limit : JsNum) (tok : String) (codec : CursorCodec V ε)
        (payload : CursorPayload V),
      (limit.isInt && JsNum.lt 0 limit) = true → sorts ≠ [] →
      decodeCursorPayload tok codec = .ok payload →
      payload.sig ≠ sortSignature sorts →
      paginate dialect exec query sorts limit (some { nextPage := some tok }) codec =
        .error (.pag "Page token does not match sort order" .INVALID_TOKEN none)) ∧
    (∀ (dialect : PaginationDialect Q V ε)
        (exec : Q → Except (JsError ε) (List (Row V))) (query : Q)
        (sorts : List SortItem) (limit : JsNum) (tok : String) (codec : CursorCodec V ε)
        (payload : CursorPayload V),
      (limit.isInt && JsNum.lt 0 limit) = true → sorts ≠ [] →
      decodeCursorPayload tok codec = .ok payload →
      payload.sig ≠ sortSignature sorts →
      paginate dialect exec query sorts limit (some { prevPage := some tok }) codec =
        .error (.pag "Page token does not match sort order" .INVALID_TOKEN none)) := by
  refine ⟨?_, ?_, ?_, ?_, ?_⟩
  · intro dialect exec query sorts limit tok codec e0 hL hS hdec
    refine paginate_error_of_inner hL hS (paginateInner_error_decode ?_)
    simp [decodeCursorOpt, decodeCursor, Except.map, hdec]
  · intro dialect exec query sorts limit tok codec e0 hL hS hdec
    refine paginate_error_of_inner hL hS (paginateInner_error_decode ?_)
    simp [decodeCursorOpt, decodeCursor, Except.map, hdec]
  · intro tok codec v ez hv hp
    unfold decodeCursorPayload
    rw [hv]
    simpa [Except.bind] using hp
  · intro dialect exec query sorts limit tok codec payload hL hS hdec hsig
    have hwrap : (.pag "Page token does not match sort order" .INVALID_TOKEN none : JsError ε) =
        wrapPaginateError (.pag "Page token does not match sort order" .INVALID_TOKEN none) := rfl
    rw [hwrap]
    refine paginate_error_of_inner hL hS (paginateInner_error_applied
      (d := some (.next payload)) ?_ ?_)
    · simp [decodeCursorOpt, decodeCursor, Except.map, hdec]
    · simp only [appliedQuery]
      rw [if_pos hsig]
  · intro dialect exec query sorts limit tok codec payload hL hS hdec hsig
    have hwrap : (.pag "Page token does not match sort order" .INVALID_TOKEN none : JsError ε) =
        wrapPaginateError (.pag "Page token does not match sort order" .INVALID_TOKEN none) := rfl
    rw [hwrap]
    refine paginate_error_of_inner hL hS (paginateInner_error_applied
      (d := some (.prev payload)) ?_ ?_)
    · simp [decodeCursorOpt, decodeCursor, Except.map, hdec]
    · simp only [appliedQuery]
      rw [if_pos hsig]

/-- Witness for C5: a failing decode is wrapped as `UNEXPECTED_ERROR` for
both token kinds, a schema failure propagates as the `ZodError`, and a
payload with the wrong 1-character `sig` is rejected with
`INVALID_TOKEN`. -/
theorem paginate_invalid_cursor_spec_witness :
    (paginate (recDialect Unit Unit) (fun _ => .ok []) {} [⟨"id", none, none⟩] 1
        (some { nextPage := some "t" }) ⟨fun _ => .ok "tok", fun _ => .error (.ext ())⟩ =
      .error (wrapPaginateError (.ext ()))) ∧
    (paginate (recDialect Unit Unit) (fun _ => .ok []) {} [⟨"id", none, none⟩] 1
        (some { prevPage := some "t" }) ⟨fun _ => .ok "tok", fun _ => .error (.ext ())⟩ =
      .error (wrapPaginateError (.ext ()))) ∧
    (decodeCursorPayload "t" (⟨fun _ => .ok "tok", fun _ => .ok (.vstr "junk")⟩ :
        CursorCodec Unit Unit) = .error (.zod "invalid cursor payload")) ∧
    (paginate (recDialect Unit Unit) (fun _ => .ok []) {} [⟨"id", none, none⟩] 1
        (some { nextPage := some "t" })
        ⟨fun _ => .ok "tok", fun _ => .ok (.vobj [("sig", .vstr "x"), ("k", .vobj [])])⟩ =
      .error (.pag "Page token does not match sort order" .INVALID_TOKEN none)) ∧
    (paginate (recDialect Unit Unit) (fun _ => .ok []) {} [⟨"id", none, none⟩] 1
        (some { prevPage := some "t" })
        ⟨fun _ => .ok "tok", fun _ => .ok (.vobj [("sig", .vstr "x"), ("k", .vobj [])])⟩ =
      .error (.pag "Page token does not match sort order" .INVALID_TOKEN none)) := by
  have hxsig : ("x" : String) ≠ sortSignature [⟨"id", none, none⟩] := by
    intro h
    have h8 := sortSignature_length [⟨"id", none, none⟩]
    rw [← h] at h8
    exact absurd h8 (by decide)
  refine ⟨?_, ?_, ?_, ?_, ?_⟩
  · exact (paginate_invalid_cursor_spec (Q := RecQuery Unit) (V := Unit) (ε := Unit)).1 (recDialect Unit Unit) (fun _ => .ok []) {}
      [⟨"id", none, none⟩] 1 "t" ⟨fun _ => .ok "tok", fun _ => .error (.ext ())⟩ (.ext ())
      rfl (by simp) rfl
  · exact (paginate_invalid_cursor_spec (Q := RecQuery Unit) (V := Unit) (ε := Unit)).2.1 (recDialect Unit Unit) (fun _ => .ok []) {}
      [⟨"id", none, none⟩] 1 "t" ⟨fun _ => .ok "tok", fun _ => .error (.ext ())⟩ (.ext ())
      rfl (by simp) rfl
  · exact (paginate_invalid_cursor_spec (Q := RecQuery Unit) (V := Unit) (ε := Unit)).2.2.1 "t"
      ⟨fun _ => .ok "tok", fun _ => .ok (.vstr "junk")⟩ (.vstr "junk")
      (.zod "invalid cursor payload") rfl rfl
  · exact (paginate_invalid_cursor_spec (Q := RecQuery Unit) (V := Unit) (ε := Unit)).2.2.2.1 (recDialect Unit Unit) (fun _ => .ok []) {}
      [⟨"id", none, none⟩] 1 "t"
      ⟨fun _ => .ok "tok", fun _ => .ok (.vobj [("sig", .vstr "x"), ("k", .vobj [])])⟩
      ⟨"x", []⟩ rfl (by simp) rfl hxsig
  · exact (paginate_invalid_cursor_spec (Q := RecQuery Unit) (V := Unit) (ε := Unit)).2.2.2.2 (recDialect Unit Unit) (fun _ => .ok []) {}
      [⟨"id", none, none⟩] 1 "t"
      ⟨fun _ => .ok "tok", fun _ => .ok (.vobj [("sig", .vstr "x"), ("k", .vobj [])])⟩
      ⟨"x", []⟩ rfl (by simp) rfl hxsig

/-- Counterexample to C6: an offset cursor undergoes no range validation.
With `{offset: -5}`, `paginate` succeeds and hands `-5` to the executor's
query (the executor below only succeeds when it sees the offset `-5`
applied). -/
theorem paginate_negative_offset_cex :
    paginate (recDialect Unit Unit)
        (fun q => if q.offsetApplied = some ⟨-5, 1⟩ then .ok [] else .error (.ext ())) {}
        [⟨"id", none, none⟩] 1 (some { offset := some ⟨-5, 1⟩ })
        ⟨fun _ => .ok "tok", fun _ => .error (.ext ())⟩ =
      .ok { items := [], prevPage := none, nextPage := none, startCursor := none,
            endCursor := none, hasPrevPage := false, hasNextPage := false } ∧
    (⟨-5, 1⟩ : JsNum).num < 0 :=
  ⟨rfl, by decide⟩

/-- **C6 (amended)**: an incoming offset cursor is accepted as-is with no
decoding and no range validation: every offset value `n` — negative and
non-integer values included — is passed unchanged to `applyOffset`, and
`paginate` succeeds for any such `n` (given a valid limit, a non-empty
sort-set and a successful executor). -/
theorem paginate_offset_passthrough {V ε : Type} :
    (∀ (query : RecQuery V) (sorts : List SortItem) (limit : JsNum) (o : JsNum),
      appliedQuery (recDialect V ε) query sorts limit (some (.offset o)) =
        .ok { query with
              sortsApplied := some sorts
              limitApplied := some (JsNum.add limit 1)
              limitCursorType := some .offset
              offsetApplied := some o }) ∧
    (∀ (sorts : List SortItem) (limit : JsNum) (o : JsNum) (codec : CursorCodec V ε),
      (limit.isInt && JsNum.lt 0 limit) = true → sorts ≠ [] →
      paginate (recDialect V ε) (fun _ => .ok []) {} sorts limit
          (some { offset := some o }) codec =
        .ok { items := [], prevPage := none, nextPage := none, startCursor := none,
              endCursor := none, hasPrevPage := false, hasNextPage := false }) := by
  constructor
  · intro query sorts limit o
    rfl
  · intro sorts limit o codec hL hS
    have hitems : pageItems (some (.offset o)) ([] : List (Row V)) limit = [] := by
      simp [pageItems]
    refine paginate_ok_iff.mpr ⟨assertLimitSorts_ok_iff.mpr ⟨hL, hS⟩,
      paginateInner_ok_iff.mpr ⟨some (.offset o), _, [], {}, rfl, rfl, rfl, ?_, ?_⟩⟩
    · rw [hitems]
      rfl
    · rw [hitems]
      rfl

/-- Validation failures are `PaginationError`s. -/
theorem assertLimitSorts_error_pag {ε : Type} {limit : JsNum} {sorts : List SortItem}
    {e : JsError ε} (h : assertLimitSorts limit sorts = .error e) :
    ∃ m c, e = .pag m c none := by
  unfold assertLimitSorts at h
  split_ifs at h with h1 h2 <;> cases h <;> exact ⟨_, _, rfl⟩

/-- Every failure of `paginate` is a `PaginationError`. -/
theorem paginate_error_is_pag {Q V ε : Type} {dialect : PaginationDialect Q V ε}
    {exec : Q → Except (JsError ε) (List (Row V))} {query : Q} {sorts : List SortItem}
    {limit : JsNum} {cursor : Option CursorIncoming} {codec : CursorCodec V ε}
    {e : JsError ε} (h : paginate dialect exec query sorts limit cursor codec = .error e) :
    ∃ m c cs, e = .pag m c cs := by
  rcases paginate_error_iff.mp h with ha | ⟨-, e0, -, he⟩
  · rcases assertLimitSorts_error_pag ha with ⟨m, c, rfl⟩
    exact ⟨m, c, none, rfl⟩
  · subst he
    cases e0 with
    | pag m c cs => exact ⟨m, c, cs, rfl⟩
    | zod m => exact ⟨_, _, _, rfl⟩
    | ext x => exact ⟨_, _, _, rfl⟩

/-- An executor failure short-circuits `paginateInner`. -/
theorem paginateInner_error_exec {Q V ε : Type} {dialect : PaginationDialect Q V ε}
    {exec : Q → Except (JsError ε) (List (Row V))} {query : Q} {sorts : List SortItem}
    {limit : JsNum} {cursor : Option CursorIncoming} {codec : CursorCodec V ε}
    {d : Option (DecodedCursor V)} {q : Q} {e0 : JsError ε}
    (h1 : decodeCursorOpt cursor codec = .ok d)
    (h2 : appliedQuery dialect query sorts limit d = .ok q)
    (h3 : exec q = .error e0) :
    paginateInner dialect exec query sorts limit cursor codec = .error e0 := by
  unfold paginateInner
  rw [h1]
  simp only [Except.bind]
  rw [h2]
  simp only
  rw [h3]

/-- Every failure of `paginateWithEdges` is a `PaginationError`. -/
theorem paginateWithEdges_error_is_pag {Q V ε : Type} {dialect : PaginationDialect Q V ε}
    {exec : Q → Except (JsError ε) (List (Row V))} {query : Q} {sorts : List SortItem}
    {limit : JsNum} {cursor : Option CursorIncoming} {codec : CursorCodec V ε}
    {e : JsError ε}
    (h : paginateWithEdges dialect exec query sorts limit cursor codec = .error e) :
    ∃ m c cs, e = .pag m c cs := by
  unfold paginateWithEdges at h
  cases hp : paginate dialect exec query sorts limit cursor codec with
  | error e1 =>
    rw [hp] at h
    simp only [Except.bind] at h
    cases h
    exact paginate_error_is_pag hp
  | ok r =>
    rw [hp] at h
    simp only [Except.bind] at h
    cases he : resolveEdges r.items sorts codec with
    | ok edges => rw [he] at h; cases h
    | error e2 =>
      rw [he] at h
      simp only [Except.error.injEq] at h
      subst h
      cases e2 with
      | pag m c cs => exact ⟨m, c, cs, rfl⟩
      | zod m => exact ⟨_, _, _, rfl⟩
      | ext x => exact ⟨_, _, _, rfl⟩

/-- **C7**: every failure of `paginate` or `paginateWithEdges` is a
`PaginationError` (one of the four codes, by the type of `ErrorCode`); a
non-positive or non-integer limit fails with `INVALID_LIMIT` and an empty
sort-set with `INVALID_SORT` regardless of executor, codec and cursor; an
executor failure that is already a `PaginationError` passes through
unchanged, and any other executor failure is re-wrapped exactly once as an
`UNEXPECTED_ERROR` carrying the original failure as its cause — and the
`Except` result type itself rules out any partial result. -/
theorem paginate_error_surface {Q V ε : Type} :
    (∀ (dialect : PaginationDialect Q V ε)
        (exec : Q → Except (JsError ε) (List (Row V))) (query : Q)
        (sorts : List SortItem) (limit : JsNum) (cursor : Option CursorIncoming)
        (codec : CursorCodec V ε) (e : JsError ε),
      paginate dialect exec query sorts limit cursor codec = .error e →
      ∃ m c cs, e = .pag m c cs) ∧
    (∀ (dialect : PaginationDialect Q V ε)
        (exec : Q → Except (JsError ε) (List (Row V))) (query : Q)
        (sorts : List SortItem) (limit : JsNum) (cursor : Option CursorIncoming)
        (codec : CursorCodec V ε),
      (limit.isInt && JsNum.lt 0 limit) = false →
      paginate dialect exec query sorts limit cursor codec =
        .error (.pag "Invalid page size limit" .INVALID_LIMIT none)) ∧
    (∀ (dialect : PaginationDialect Q V ε)
        (exec : Q → Except (JsError ε) (List (Row V))) (query : Q) (limit : JsNum)
        (cursor : Option CursorIncoming) (codec : CursorCodec V ε),
      (limit.isInt && JsNum.lt 0 limit) = true →
      paginate dialect exec query [] limit cursor codec =
        .error (.pag "Cannot paginate without sorting" .INVALID_SORT none)) ∧
    (∀ (dialect : PaginationDialect Q V ε) (query : Q) (sorts : List SortItem)
        (limit : JsNum) (codec : CursorCodec V ε) (e0 : JsError ε),
      (limit.isInt && JsNum.lt 0 limit) = true → sorts ≠ [] →
      appliedQuery dialect query sorts limit none = .ok query →
      paginate dialect (fun _ => .error e0) query sorts limit none codec =
        .error (wrapPaginateError e0)) ∧
    ((∀ (m : String) (c : ErrorCode) (cs : Option (JsError ε)),
        wrapPaginateError (.pag m c cs) = .pag m c cs) ∧
      (∀ x : ε, wrapPaginateError (.ext x) =
        .pag "Failed to paginate" .UNEXPECTED_ERROR (some (.ext x))) ∧
      (∀ m : String, wrapPaginateError (ε := ε) (.zod m) =
        .pag "Failed to paginate" .UNEXPECTED_ERROR (some (.zod m)))) ∧
    (∀ (dialect : PaginationDialect Q V ε)
        (exec : Q → Except (JsError ε) (List (Row V))) (query : Q)
        (sorts : List SortItem) (limit : JsNum) (cursor : Option CursorIncoming)
        (codec : CursorCodec V ε) (e : JsError ε),
      paginateWithEdges dialect exec query sorts limit cursor codec = .error e →
      ∃ m c cs, e = .pag m c cs) ∧
    (∀ (dialect : PaginationDialect Q V ε) (query : Q) (sorts : List SortItem)
        (limit : JsNum) (codec : CursorCodec V ε) (e0 : JsError ε),
      (limit.isInt && JsNum.lt 0 limit) = true → sorts ≠ [] →
      appliedQuery dialect query sorts limit none = .ok query →
      paginateWithEdges dialect (fun _ => .error e0) query sorts limit none codec =
        .error (wrapPaginateError e0)) := by
  have hvalid : ∀ (dialect : PaginationDialect Q V ε) (query : Q) (sorts : List SortItem)
      (limit : JsNum) (codec : CursorCodec V ε) (e0 : JsError ε),
      (limit.isInt && JsNum.lt 0 limit) = true → sorts ≠ [] →
      appliedQuery dialect query sorts limit none = .ok query →
      paginate dialect (fun _ => .error e0) query sorts limit none codec =
        .error (wrapPaginateError e0) := by
    intro dialect query sorts limit codec e0 hL hS hq
    exact paginate_error_of_inner hL hS (paginateInner_error_exec rfl hq rfl)
  refine ⟨fun _ _ _ _ _ _ _ _ h => paginate_error_is_pag h, ?_, ?_, hvalid,
    ⟨fun _ _ _ => rfl, fun _ => rfl, fun _ => rfl⟩,
    fun _ _ _ _ _ _ _ _ h => paginateWithEdges_error_is_pag h, ?_⟩
  · intro dialect exec query sorts limit cursor codec hbad
    unfold paginate assertLimitSorts
    rw [hbad]
    rfl
  · intro dialect exec query limit cursor codec hL
    unfold paginate assertLimitSorts
    rw [hL]
    rfl
  · intro dialect query sorts limit codec e0 hL hS hq
    unfold paginateWithEdges
    rw [hvalid dialect query sorts limit codec e0 hL hS hq]
    rfl

/-- A dialect whose helpers leave the query untouched (legal under the
`PaginationDialect` contract); used to exhibit executor failures. -/
def idDialect (Q V ε : Type) : PaginationDialect Q V ε where
  applyLimit q _ _ := q
  applyOffset q _ := q
  applySort q _ := q
  applyCursor q _ _ := .ok q

/-- A trivial cursor codec for the C7 witness. -/
def c7Codec : CursorCodec Unit Unit where
  encode _ := .ok "t"
  decode _ := .error (.ext ())

/-- Witness for C7: `limit = 0` gives `INVALID_LIMIT`, an empty sort-set
gives `INVALID_SORT`, an executor throwing a `PaginationError` passes it
through unchanged, an executor throwing a plain error gets it wrapped once
with the cause attached (for `paginate` and `paginateWithEdges` alike),
and both failures are `PaginationError`s. -/
theorem paginate_error_surface_witness :
    (paginate (idDialect Unit Unit Unit) (fun _ => .ok []) () [⟨"id", none, none⟩] 0 none
        c7Codec = .error (.pag "Invalid page size limit" .INVALID_LIMIT none)) ∧
    (paginate (idDialect Unit Unit Unit) (fun _ => .ok []) () [] 1 none c7Codec =
      .error (.pag "Cannot paginate without sorting" .INVALID_SORT none)) ∧
    (paginate (idDialect Unit Unit Unit) (fun _ => .error (.pag "boom" .INVALID_TOKEN none))
        () [⟨"id", none, none⟩] 1 none c7Codec =
      .error (.pag "boom" .INVALID_TOKEN none)) ∧
    (paginate (idDialect Unit Unit Unit) (fun _ => .error (.ext ())) () [⟨"id", none, none⟩]
        1 none c7Codec =
      .error (.pag "Failed to paginate" .UNEXPECTED_ERROR (some (.ext ())))) ∧
    (∃ m c cs, (.pag "Invalid page size limit" .INVALID_LIMIT none : JsError Unit) =
      .pag m c cs) ∧
    (paginateWithEdges (idDialect Unit Unit Unit) (fun _ => .error (.ext ())) ()
        [⟨"id", none, none⟩] 1 none c7Codec =
      .error (.pag "Failed to paginate" .UNEXPECTED_ERROR (some (.ext ())))) ∧
    (∃ m c cs, (.pag "Failed to paginate" .UNEXPECTED_ERROR (some (.ext ())) : JsError Unit) =
      .pag m c cs) := by
  have T := paginate_error_surface (Q := Unit) (V := Unit) (ε := Unit)
  have h1 := T.2.1 (idDialect Unit Unit Unit) (fun _ => .ok []) () [⟨"id", none, none⟩] 0 none
    c7Codec (by decide)
  have h4 := T.2.2.2.1 (idDialect Unit Unit Unit) () [⟨"id", none, none⟩] 1 c7Codec
    (.ext ()) (by decide) (by simp) rfl
  have h6 := T.2.2.2.2.2.2 (idDialect Unit Unit Unit) () [⟨"id", none, none⟩] 1 c7Codec
    (.ext ()) (by decide) (by simp) rfl
  exact ⟨h1,
    T.2.2.1 (idDialect Unit Unit Unit) (fun _ => .ok []) () 1 none c7Codec (by decide),
    T.2.2.2.1 (idDialect Unit Unit Unit) () [⟨"id", none, none⟩] 1 c7Codec
      (.pag "boom" .INVALID_TOKEN none) (by decide) (by simp) rfl,
    h4, T.1 _ _ _ _ _ _ _ _ h1, h6,
    T.2.2.2.2.2.1 _ _ _ _ _ _ _ _ h6⟩

/-- Witness for C6 at the negative non-integer offset `-5/2`. -/
theorem paginate_offset_passthrough_witness :
    ((1 : JsNum).isInt && JsNum.lt 0 1) = true ∧
    ([⟨"id", none, none⟩] : List SortItem) ≠ [] ∧
    paginate (recDialect Unit Unit) (fun _ => .ok []) {} [⟨"id", none, none⟩] 1
        (some { offset := some ⟨-5, 2⟩ }) ⟨fun _ => .ok "tok", fun _ => .error (.ext ())⟩ =
      .ok { items := [], prevPage := none, nextPage := none, startCursor := none,
            endCursor := none, hasPrevPage := false, hasNextPage := false } :=
  ⟨by decide, by simp,
   (paginate_offset_passthrough (V := Unit) (ε := Unit)).2 [⟨"id", none, none⟩] 1 ⟨-5, 2⟩
     ⟨fun _ => .ok "tok", fun _ => .error (.ext ())⟩ (by decide) (by simp)⟩

/-- `reduce` over promise-chained encodes equals the spec's left-to-right
chain. -/
theorem foldl_bind_chainEncode {ε α : Type} (codecs : List (Codec ε α)) (m : Except ε α) :
    codecs.foldl (fun acc c => acc.bind c.encode) m = m.bind (specChainEncode codecs) := by
  induction codecs generalizing m with
  | nil => cases m <;> rfl
  | cons c cs ih =>
    simp only [List.foldl_cons, specChainEncode]
    rw [ih]
    cases m with
    | error e => rfl
    | ok v => simp [Except.bind]

/-- `reduceRight` over promise-chained decodes equals the spec's
right-to-left chain. -/
theorem foldr_bind_chainDecode {ε α : Type} (codecs : List (Codec ε α)) (v : α) :
    codecs.foldr (fun c acc => acc.bind c.decode) (.ok v) = specChainDecode codecs v := by
  induction codecs with
  | nil => rfl
  | cons c cs ih =>
    simp only [List.foldr_cons, specChainDecode]
    rw [ih]

/-- The sequential chains round-trip when each codec does. -/
theorem chain_roundtrip {ε α : Type} (codecs : List (Codec ε α))
    (h : ∀ c ∈ codecs, ∀ x y, c.encode x = .ok y → c.decode y = .ok x) :
    ∀ v w, specChainEncode codecs v = .ok w → specChainDecode codecs w = .ok v := by
  induction codecs with
  | nil =>
    intro v w hvw
    cases hvw
    rfl
  | cons c cs ih =>
    intro v w hvw
    simp only [specChainEncode] at hvw
    cases hc : c.encode v with
    | error e => rw [hc] at hvw; cases hvw
    | ok u =>
      rw [hc] at hvw
      simp only [Except.bind] at hvw
      have hdec := ih (fun c' hc' => h c' (List.mem_cons_of_mem _ hc')) u w hvw
      simp only [specChainDecode]
      rw [hdec]
      simp only [Except.bind]
      exact h c (List.mem_cons_self _ _) v u hc

/-- **C8**: for every non-empty codec list, the composed codec's `encode`
is the left-to-right chain of the members' encodes (codec `n` feeding
codec `n+1`) and its `decode` is the chain of the members' decodes in
exactly the inverse order; consequently, when every member satisfies the
round-trip law `decode (encode x) = x`, so does the composition. -/
theorem codecPipe_spec {ε α : Type} :
    (∀ (codecs : List (Codec ε α)), codecs ≠ [] → ∀ v,
      (codecPipe codecs).encode v = specChainEncode codecs v) ∧
    (∀ (codecs : List (Codec ε α)), codecs ≠ [] → ∀ v,
      (codecPipe codecs).decode v = specChainDecode codecs v) ∧
    (∀ (codecs : List (Codec ε α)), codecs ≠ [] →
      (∀ c ∈ codecs, ∀ x y, c.encode x = .ok y → c.decode y = .ok x) →
      ∀ v w, (codecPipe codecs).encode v = .ok w →
        (codecPipe codecs).decode w = .ok v) := by
  have henc : ∀ (codecs : List (Codec ε α)) (v : α),
      (codecPipe codecs).encode v = specChainEncode codecs v := by
    intro codecs v
    have h := foldl_bind_chainEncode codecs (Except.ok v)
    simpa [codecPipe, Except.bind] using h
  have hdec : ∀ (codecs : List (Codec ε α)) (v : α),
      (codecPipe codecs).decode v = specChainDecode codecs v :=
    fun codecs v => foldr_bind_chainDecode codecs v
  refine ⟨fun codecs _ v => henc codecs v, fun codecs _ v => hdec codecs v, ?_⟩
  intro codecs _ h v w hvw
  rw [hdec]
  exact chain_roundtrip codecs h v w ((henc codecs v).symm.trans hvw)

/-- The identity codec used by the C8 witness. -/
def c8Id : Codec Unit String where
  encode s := .ok s
  decode s := .ok s

/-- Witness for C8 on a concrete 2-codec pipeline. -/
theorem codecPipe_spec_witness :
    ([c8Id, c8Id] : List (Codec Unit String)) ≠ [] ∧
    (codecPipe [c8Id, c8Id]).encode "a" = specChainEncode [c8Id, c8Id] "a" ∧
    (codecPipe [c8Id, c8Id]).decode "a" = specChainDecode [c8Id, c8Id] "a" ∧
    (codecPipe [c8Id, c8Id]).decode "a" = .ok "a" := by
  have hrt : ∀ c ∈ ([c8Id, c8Id] : List (Codec Unit String)), ∀ x y,
      c.encode x = .ok y → c.decode y = .ok x := by
    intro c hc x y hxy
    simp only [List.mem_cons, List.not_mem_nil, or_false] at hc
    rcases hc with rfl | rfl <;> (cases hxy; rfl)
  refine ⟨by simp, codecPipe_spec.1 [c8Id, c8Id] (by simp) "a",
    codecPipe_spec.2.1 [c8Id, c8Id] (by simp) "a",
    codecPipe_spec.2.2 [c8Id, c8Id] (by simp) hrt "a" "a" rfl⟩

/-- Every emitted base64url character is in the alphabet. -/
theorem b64Val_b64Char (n : Nat) : (b64Val (b64Char n)).isSome = true := by
  unfold b64Char b64Val
  have h : n % 64 < 64 := by omega
  generalize hm : n % 64 = m at h
  interval_cases m <;> decide

/-- `encode` only emits alphabet characters (so a string containing a
character outside the alphabet, such as `"!"`, is never an `encode`
output). -/
theorem b64urlEncodeBytes_alphabet : ∀ (bytes : List Nat) (c : Char),
    c ∈ b64urlEncodeBytes bytes → (b64Val c).isSome = true
  | [], c, hc => by simp [b64urlEncodeBytes] at hc
  | [b0], c, hc => by
    simp only [b64urlEncodeBytes, List.mem_cons, List.not_mem_nil, or_false] at hc
    rcases hc with rfl | rfl <;> exact b64Val_b64Char _
  | [b0, b1], c, hc => by
    simp only [b64urlEncodeBytes, List.mem_cons, List.not_mem_nil, or_false] at hc
    rcases hc with rfl | rfl | rfl <;> exact b64Val_b64Char _
  | b0 :: b1 :: b2 :: rest, c, hc => by
    simp only [b64urlEncodeBytes, List.mem_cons] at hc
    rcases hc with rfl | rfl | rfl | rfl | h
    · exact b64Val_b64Char _
    · exact b64Val_b64Char _
    · exact b64Val_b64Char _
    · exact b64Val_b64Char _
    · exact b64urlEncodeBytes_alphabet rest c h

/-- Counterexample to C9: `Buffer.from(s, "base64url")` never throws —
characters outside the alphabet are ignored — so decoding the malformed
string `"!"` (its only character is not a base64url character, so `"!"`
is not an output of `encode`) silently returns `""` instead of failing. -/
theorem base64UrlCodec_lenient_cex :
    (base64UrlCodec (ε := Unit)).decode "!" = .ok "" ∧
    ("!".toList.all (fun c => (b64Val c).isSome)) = false :=
  ⟨rfl, by decide⟩

/-- **C9 (amended)**: `base64UrlCodec.decode` never fails: it returns a
string for every input, silently coercing malformed input (invalid
characters are ignored, a lone trailing sextet is dropped, invalid UTF-8
becomes U+FFFD), while `encode` emits only alphabet characters — so
malformed strings are exactly the ones `decode` coerces rather than
rejects. -/
theorem base64UrlCodec_decode_lenient {ε : Type} :
    (∀ s : String, ∃ t, (base64UrlCodec (ε := ε)).decode s = .ok t) ∧
    (∀ (s t : String), (base64UrlCodec (ε := ε)).encode s = .ok t →
      ∀ c ∈ t.toList, (b64Val c).isSome = true) := by
  constructor
  · intro s
    exact ⟨_, rfl⟩
  · intro s t h
    cases h
    intro c hc
    exact b64urlEncodeBytes_alphabet (utf8Bytes s) c hc

/-- Witness for C9: `encode "a" = "YQ"` uses only alphabet characters, and
`decode` succeeds on the malformed input `"!?"`. -/
theorem base64UrlCodec_decode_lenient_witness :
    (base64UrlCodec (ε := Unit)).encode "a" = .ok "YQ" ∧
    (∀ c ∈ "YQ".toList, (b64Val c).isSome = true) ∧
    (∃ t, (base64UrlCodec (ε := Unit)).decode "!?" = .ok t) :=
  ⟨rfl, (base64UrlCodec_decode_lenient (ε := Unit)).2 "a" "YQ" rfl,
   (base64UrlCodec_decode_lenient (ε := Unit)).1 "!?"⟩

/-- **C10**: `decodeCursor` examines the incoming object's keys in the
fixed order `nextPage`, `prevPage`, `offset`: with none of the three keys
present it (and hence `paginate`) fails with `INVALID_TOKEN` rather than
treating the cursor as a first page; a present `nextPage` wins over
everything, and `prevPage` wins over `offset`. -/
theorem decodeCursor_key_order {Q V ε : Type} :
    (∀ codec : CursorCodec V ε,
      decodeCursor {} codec = .error (.pag "Invalid cursor" .INVALID_TOKEN none)) ∧
    (∀ (c : CursorIncoming) (codec : CursorCodec V ε) (tok : String),
      c.nextPage = some tok →
      decodeCursor c codec = (decodeCursorPayload tok codec).map .next) ∧
    (∀ (c : CursorIncoming) (codec : CursorCodec V ε) (tok : String),
      c.nextPage = none → c.prevPage = some tok →
      decodeCursor c codec = (decodeCursorPayload tok codec).map .prev) ∧
    (∀ (c : CursorIncoming) (codec : CursorCodec V ε) (o : JsNum),
      c.nextPage = none → c.prevPage = none → c.offset = some o →
      decodeCursor c codec = .ok (.offset o)) ∧
    (∀ (dialect : PaginationDialect Q V ε)
        (exec : Q → Except (JsError ε) (List (Row V))) (query : Q)
        (sorts : List SortItem) (limit : JsNum) (codec : CursorCodec V ε),
      (limit.isInt && JsNum.lt 0 limit) = true → sorts ≠ [] →
      paginate dialect exec query sorts limit (some {}) codec =
        .error (.pag "Invalid cursor" .INVALID_TOKEN none)) := by
  refine ⟨fun codec => rfl, ?_, ?_, ?_, ?_⟩
  · intro c codec tok h
    simp only [decodeCursor, h]
  · intro c codec tok h1 h2
    simp only [decodeCursor, h1, h2]
  · intro c codec o h1 h2 h3
    simp only [decodeCursor, h1, h2, h3]
  · intro dialect exec query sorts limit codec hL hS
    have hdec : decodeCursorOpt (V := V) (some {}) codec =
        .error (.pag "Invalid cursor" .INVALID_TOKEN none) := rfl
    exact paginate_error_of_inner hL hS (paginateInner_error_decode hdec)

/-- A trivial codec for the C10 witness. -/
def c10Codec : CursorCodec Unit Unit where
  encode _ := .ok "t"
  decode _ := .error (.ext ())

/-- Witness for C10: with all three keys present `nextPage` wins; with
`prevPage` and `offset` present `prevPage` wins; a bare offset decodes as
an offset; and an empty cursor object fails the whole `paginate` call with
`INVALID_TOKEN`. -/
theorem decodeCursor_key_order_witness :
    (decodeCursor {} c10Codec = .error (.pag "Invalid cursor" .INVALID_TOKEN none)) ∧
    (decodeCursor { nextPage := some "n", prevPage := some "p", offset := some 3 } c10Codec =
      (decodeCursorPayload "n" c10Codec).map .next) ∧
    (decodeCursor { prevPage := some "p", offset := some 3 } c10Codec =
      (decodeCursorPayload "p" c10Codec).map .prev) ∧
    (decodeCursor { offset := some 3 } c10Codec = .ok (.offset 3)) ∧
    (paginate (recDialect Unit Unit) (fun _ => .ok []) {} [⟨"id", none, none⟩] 1 (some {})
        c10Codec = .error (.pag "Invalid cursor" .INVALID_TOKEN none)) :=
  ⟨(decodeCursor_key_order (Q := RecQuery Unit) (V := Unit) (ε := Unit)).1 c10Codec,
   (decodeCursor_key_order (Q := RecQuery Unit) (V := Unit) (ε := Unit)).2.1
     { nextPage := some "n", prevPage := some "p", offset := some 3 } c10Codec "n" rfl,
   (decodeCursor_key_order (Q := RecQuery Unit) (V := Unit) (ε := Unit)).2.2.1
     { prevPage := some "p", offset := some 3 } c10Codec "p" rfl rfl,
   (decodeCursor_key_order (Q := RecQuery Unit) (V := Unit) (ε := Unit)).2.2.2.1
     { offset := some 3 } c10Codec 3 rfl rfl rfl,
   (decodeCursor_key_order (Q := RecQuery Unit) (V := Unit) (ε := Unit)).2.2.2.2
     (recDialect Unit Unit) (fun _ => .ok []) {} [⟨"id", none, none⟩] 1 c10Codec
     (by decide) (by simp)⟩

end KyselyCursor
